import Mathlib

/-!
Verification of the flow-studio run-engine against its specification.

Each section is a shallow embedding of one Python module from
`swarm/runtime/`, translated as directly as Lean allows:

* Python `int` becomes `Int` (or `Nat` where the source guarantees
  non-negativity), Python `float` arithmetic is modelled exactly over `Rat`,
  Python `str` becomes `String` (code-point based, as in CPython),
  `Optional[T]` becomes `Option T`, `Dict[str, T]` becomes an insertion
  ordered association list `List (String × T)`, and dynamically typed JSON
  values become the inductive type `PyVal`.
* External primitives that the code merely calls (`json.loads`, `re.match`
  on schema-supplied patterns, the LLM query function, the tiktoken
  encoder) are taken as function parameters, so every theorem quantifies
  over their behaviour.
-/

namespace FlowStudio

/-- Dynamically typed Python/JSON value, as produced by `json.loads` and
stored in event payloads, tool-call dictionaries and schemas. -/
inductive PyVal where
  | pynone
  | pybool (b : Bool)
  | pyint (n : Int)
  | pyfloat (q : Rat)
  | pystr (s : String)
  | pylist (xs : List PyVal)
  | pydict (kvs : List (String × PyVal))

/-- Python truthiness (`bool(v)`): `None`, `False`, zero, the empty string
and empty containers are falsy. -/
def pyTruthy : PyVal → Bool
  | .pynone => false
  | .pybool b => b
  | .pyint n => n ≠ 0
  | .pyfloat q => q ≠ 0
  | .pystr s => s ≠ ""
  | .pylist xs => !xs.isEmpty
  | .pydict kvs => !kvs.isEmpty

/-- `type(v).__name__` for the modelled Python values. -/
def pyTypeName : PyVal → String
  | .pynone => "NoneType"
  | .pybool _ => "bool"
  | .pyint _ => "int"
  | .pyfloat _ => "float"
  | .pystr _ => "str"
  | .pylist _ => "list"
  | .pydict _ => "dict"

/-- Numeric view used by Python comparisons: `bool` is a subclass of `int`,
so `True` compares as `1`; `int` and `float` compare exactly. -/
def pyToRat : PyVal → Option Rat
  | .pybool b => some (if b then 1 else 0)
  | .pyint n => some (n : Rat)
  | .pyfloat q => some q
  | _ => none

/-- Python `str.upper()` restricted to ASCII (all statuses and keys in the
engine are ASCII), written over the character list so it evaluates. -/
def pyUpper (s : String) : String := ⟨s.data.map Char.toUpper⟩

/-- Python `str.lower()` restricted to ASCII, over the character list. -/
def pyLower (s : String) : String := ⟨s.data.map Char.toLower⟩

/-- Python `dict.get(k)` / assoc-list lookup on string keys. -/
def pyGet (kvs : List (String × PyVal)) (k : String) : Option PyVal :=
  match kvs with
  | [] => none
  | (k', v) :: rest => if k' = k then some v else pyGet rest k

/-- Python `d[k] = v`: replace an existing binding in place, else append
(insertion order preserved, as in CPython dicts). -/
def pySet {α : Type} (kvs : List (String × α)) (k : String) (v : α) :
    List (String × α) :=
  match kvs with
  | [] => [(k, v)]
  | (k', v') :: rest =>
      if k' = k then (k', v) :: rest else (k', v') :: pySet rest k v

/-- Lookup in a `List (String × α)` association list (dict model). -/
def assocGet {α : Type} (kvs : List (String × α)) (k : String) : Option α :=
  match kvs with
  | [] => none
  | (k', v) :: rest => if k' = k then some v else assocGet rest k

/-!
## `swarm/runtime/types/tool_call.py` — claim C9

`NormalizedToolCall` is a dataclass with annotated field types; we embed it
as the corresponding typed record.  `to_dict` serializes into a Python
dict, modelled as `List (String × PyVal)`.  `from_dict` reads keys back
with `dict.get` defaults and performs no conversion, so on the dicts
`to_dict` produces the field values are exactly the stored `PyVal`s;
`fromDict` returns `none` only for dicts whose values fall outside the
dataclass's annotated field types (such a dict never comes from `toDict`).
The `__post_init__` clock fallback for a missing timestamp is passed in as
the `now` argument.
-/

structure NormalizedToolCall where
  tool_name : String
  tool_input : List (String × PyVal)
  tool_output : Option String
  success : Bool
  duration_ms : Int
  blocked : Bool
  blocked_reason : Option String
  source : String
  timestamp : Option String

namespace NormalizedToolCall

/-- Encoding of an `Optional[str]` field into a dict value. -/
def optStrVal : Option String → PyVal
  | none => .pynone
  | some s => .pystr s

/-- `NormalizedToolCall.to_dict`: always writes the six mandatory keys in
order; writes `tool_output` only when not `None`; writes `blocked`
(as the literal `True`) only when blocked, and `blocked_reason` only when
additionally the reason string is truthy (non-empty). -/
def toDict (c : NormalizedToolCall) : List (String × PyVal) :=
  [("tool_name", .pystr c.tool_name),
   ("tool_input", .pydict c.tool_input),
   ("success", .pybool c.success),
   ("duration_ms", .pyint c.duration_ms),
   ("source", .pystr c.source),
   ("timestamp", optStrVal c.timestamp)]
  ++ (match c.tool_output with
      | some out => [("tool_output", .pystr out)]
      | none => [])
  ++ (if c.blocked then
        [("blocked", .pybool true)]
        ++ (match c.blocked_reason with
            | some r => if r ≠ "" then [("blocked_reason", .pystr r)] else []
            | none => [])
      else [])

/-- Decode a dict value into an `Optional[str]` field. -/
def decodeOptStr : PyVal → Option (Option String)
  | .pynone => some none
  | .pystr s => some (some s)
  | _ => none

/-- `NormalizedToolCall.from_dict` followed by `__post_init__`: each field
is read with `data.get(key, default)`; a missing timestamp is replaced by
the current time `now`.  Returns `none` if a value does not fit the
dataclass's annotated type (cannot happen for dicts built by `toDict`). -/
def fromDict (data : List (String × PyVal)) (now : String) :
    Option NormalizedToolCall := do
  let tool_name ← match (pyGet data "tool_name").getD (.pystr "unknown") with
    | .pystr s => some s | _ => none
  let tool_input ← match (pyGet data "tool_input").getD (.pydict []) with
    | .pydict kvs => some kvs | _ => none
  let tool_output ← decodeOptStr ((pyGet data "tool_output").getD .pynone)
  let success ← match (pyGet data "success").getD (.pybool true) with
    | .pybool b => some b | _ => none
  let duration_ms ← match (pyGet data "duration_ms").getD (.pyint 0) with
    | .pyint n => some n | _ => none
  let blocked ← match (pyGet data "blocked").getD (.pybool false) with
    | .pybool b => some b | _ => none
  let blocked_reason ← decodeOptStr ((pyGet data "blocked_reason").getD .pynone)
  let source ← match (pyGet data "source").getD (.pystr "unknown") with
    | .pystr s => some s | _ => none
  let timestamp ← decodeOptStr ((pyGet data "timestamp").getD .pynone)
  let timestamp := match timestamp with
    | none => some now
    | some s => some s
  some ⟨tool_name, tool_input, tool_output, success, duration_ms, blocked,
        blocked_reason, source, timestamp⟩

end NormalizedToolCall

/-- A tool call with `blocked = False` but a stale non-`None`
`blocked_reason`: `to_dict` drops the reason, so the round trip loses it. -/
def c9CexCall : NormalizedToolCall :=
  ⟨"Bash", [], none, true, 0, false, some "stale", "sdk", some "t0"⟩

/-- C9 counterexample: the round trip `from_dict ∘ to_dict` does not
preserve `blocked_reason` when `blocked` is false: the input call carries
`blocked_reason = "stale"` but the reparsed call carries `None`. -/
theorem c9_roundtrip_counterexample :
    c9CexCall.blocked_reason = some "stale" ∧
      (NormalizedToolCall.fromDict c9CexCall.toDict "now").map
        NormalizedToolCall.blocked_reason = some none :=
  ⟨rfl, rfl⟩

/-- C9 (amended): for every `NormalizedToolCall` whose `timestamp` is set
and whose `blocked_reason` is `None` unless the call is blocked with a
non-empty reason, parsing `to_dict`'s output back with `from_dict` yields
a call with all nine fields equal to the original. -/
theorem c9_roundtrip (c : NormalizedToolCall) (now : String)
    (hts : c.timestamp ≠ none)
    (hbr : c.blocked_reason = none ∨
      (c.blocked = true ∧ c.blocked_reason ≠ some "")) :
    NormalizedToolCall.fromDict c.toDict now = some c := by
  obtain ⟨n, i, o, s, d, b, r, src, ts⟩ := c
  cases ts with
  | none => exact absurd rfl hts
  | some t =>
    cases b with
    | false =>
      have hr : r = none := by
        rcases hbr with h | ⟨h, _⟩
        · exact h
        · exact absurd h (by simp)
      subst hr
      cases o <;>
        simp [NormalizedToolCall.toDict, NormalizedToolCall.fromDict,
          NormalizedToolCall.optStrVal, NormalizedToolCall.decodeOptStr, pyGet]
    | true =>
      rcases hbr with h | ⟨_, h⟩
      · subst h
        cases o <;>
          simp [NormalizedToolCall.toDict, NormalizedToolCall.fromDict,
            NormalizedToolCall.optStrVal, NormalizedToolCall.decodeOptStr, pyGet]
      · cases r with
        | none =>
          cases o <;>
            simp [NormalizedToolCall.toDict, NormalizedToolCall.fromDict,
              NormalizedToolCall.optStrVal, NormalizedToolCall.decodeOptStr, pyGet]
        | some rr =>
          have hrr : rr ≠ "" := fun he => h (by rw [he])
          cases o <;>
            simp [NormalizedToolCall.toDict, NormalizedToolCall.fromDict,
              NormalizedToolCall.optStrVal, NormalizedToolCall.decodeOptStr,
              pyGet, hrr]

/-- A fully populated, well-formed tool call used to witness `c9_roundtrip`. -/
def c9WitCall : NormalizedToolCall :=
  ⟨"Read", [("file_path", .pystr "a.txt")], some "ok", true, 12, true,
    some "policy", "sdk", some "2024-01-01T00:00:00Z"⟩

/-- Witness for C9: the round trip is the identity on a concrete call. -/
theorem c9_roundtrip_witness :
    NormalizedToolCall.fromDict c9WitCall.toDict "now" = some c9WitCall :=
  c9_roundtrip c9WitCall "now" (by simp [c9WitCall])
    (Or.inr ⟨rfl, by simp [c9WitCall]⟩)

/-!
## `swarm/runtime/checkpoint_resume.py` — claim C2

`CheckpointManager.list_checkpoints` loads one `Checkpoint` per readable
receipt file and sorts by `step_index`; we take the receipt-derived
checkpoint list (in directory order) as input and embed the sort.
`find_resume_point` then inspects the last (highest `step_index`)
checkpoint.
-/

/-- `Checkpoint` dataclass (derived from a receipt file). -/
structure Checkpoint where
  step_id : String
  flow_key : String
  run_id : String
  step_index : Int
  status : String
  receipt_path : String
  envelope_path : Option String
  completed_at : Option String

/-- `ResumePoint` dataclass. -/
structure ResumePoint where
  flow_key : String
  step_id : String
  step_index : Int
  action : String
  reason : String
  last_checkpoint : Option Checkpoint

/-- `CheckpointManager.list_checkpoints`: sort the receipt-derived
checkpoints by `step_index` (Python `list.sort` is a stable merge sort). -/
def listCheckpoints (receipts : List Checkpoint) : List Checkpoint :=
  receipts.mergeSort (fun a b => decide (a.step_index ≤ b.step_index))

/-- `CheckpointManager.get_last_checkpoint`: last element of the sorted
checkpoint list, i.e. a checkpoint with the highest `step_index`. -/
def getLastCheckpoint (receipts : List Checkpoint) : Option Checkpoint :=
  (listCheckpoints receipts).getLast?

/-- `CheckpointManager.find_resume_point`. -/
def findResumePoint (flow_key : String) (receipts : List Checkpoint) :
    ResumePoint :=
  match getLastCheckpoint receipts with
  | none =>
      ⟨flow_key, "step-0", 0, "start_fresh",
        "No checkpoints found; starting from beginning", none⟩
  | some last =>
      if last.status = "succeeded" then
        ⟨flow_key, "step-" ++ toString (last.step_index + 1),
          last.step_index + 1, "continue",
          "Last step \x27" ++ last.step_id ++ "\x27 succeeded; advancing to next",
          some last⟩
      else
        ⟨flow_key, last.step_id, last.step_index, "retry",
          "Last step \x27" ++ last.step_id ++ "\x27 " ++ last.status ++ "; retrying",
          some last⟩

theorem pairwise_getLastEq {α : Type} {R : α → α → Prop} :
    ∀ {l : List α} {z : α}, l.Pairwise R → l.getLast? = some z →
      ∀ x ∈ l, x = z ∨ R x z := by
  intro l
  induction l with
  | nil => intro z _ h; simp at h
  | cons a t ih =>
    intro z hp hl x hx
    cases t with
    | nil =>
      simp at hl hx
      subst hl; subst hx; exact Or.inl rfl
    | cons b t' =>
      have hl' : (b :: t').getLast? = some z := by
        simpa [List.getLast?] using hl
      rcases List.mem_cons.mp hx with hxa | hxt
      · subst hxa
        right
        have hz : z ∈ b :: t' := by
          have := List.mem_of_mem_getLast? hl'
          exact this
        exact (List.pairwise_cons.mp hp).1 z hz
      · exact ih (List.pairwise_cons.mp hp).2 hl' x hxt

/-- C2: `find_resume_point` returns `start_fresh` at step index 0 when no
receipts exist; otherwise, writing `last` for the receipt-derived
checkpoint with the highest `step_index`, it returns `continue` at
`last.step_index + 1` when `last.status = "succeeded"` and `retry` at
`last.step_index` otherwise. -/
theorem c2_find_resume_point (flow_key : String) (receipts : List Checkpoint) :
    (receipts = [] →
      findResumePoint flow_key receipts =
        ⟨flow_key, "step-0", 0, "start_fresh",
          "No checkpoints found; starting from beginning", none⟩) ∧
    (receipts ≠ [] → ∃ last, getLastCheckpoint receipts = some last) ∧
    (∀ last, getLastCheckpoint receipts = some last →
      last ∈ receipts ∧
      (∀ c ∈ receipts, c.step_index ≤ last.step_index) ∧
      (last.status = "succeeded" →
        findResumePoint flow_key receipts =
          ⟨flow_key, "step-" ++ toString (last.step_index + 1),
            last.step_index + 1, "continue",
            "Last step \x27" ++ last.step_id ++
              "\x27 succeeded; advancing to next", some last⟩) ∧
      (last.status ≠ "succeeded" →
        findResumePoint flow_key receipts =
          ⟨flow_key, last.step_id, last.step_index, "retry",
            "Last step \x27" ++ last.step_id ++ "\x27 " ++ last.status ++
              "; retrying", some last⟩)) := by
  have hperm : (listCheckpoints receipts).Perm receipts :=
    List.mergeSort_perm receipts (fun a b => decide (a.step_index ≤ b.step_index))
  refine ⟨?_, ?_, ?_⟩
  · intro h; subst h
    simp [findResumePoint, getLastCheckpoint, listCheckpoints]
  · intro hne
    have hsne : listCheckpoints receipts ≠ [] := by
      intro h
      rw [h] at hperm
      exact hne (List.Perm.eq_nil hperm.symm)
    rcases Option.isSome_iff_exists.mp (List.getLast?_isSome.mpr hsne) with
      ⟨last, hl⟩
    exact ⟨last, hl⟩
  · intro last hl
    have hmem_sorted : last ∈ listCheckpoints receipts :=
      List.mem_of_mem_getLast? hl
    have hmem : last ∈ receipts := hperm.mem_iff.mp hmem_sorted
    have hsorted := @List.sorted_mergeSort Checkpoint
      (fun a b => decide (a.step_index ≤ b.step_index))
      (fun a b c hab hbc => by
        simp only [decide_eq_true_eq] at *; exact le_trans hab hbc)
      (fun a b => by
        simp only [Bool.or_eq_true, decide_eq_true_eq]; exact le_total _ _)
      receipts
    have hmax : ∀ c ∈ receipts, c.step_index ≤ last.step_index := by
      intro c hc
      have hc' : c ∈ listCheckpoints receipts := hperm.mem_iff.mpr hc
      rcases pairwise_getLastEq hsorted hl c hc' with h | h
      · exact h ▸ le_refl _
      · simpa using h
    refine ⟨hmem, hmax, ?_, ?_⟩
    · intro hs
      simp [findResumePoint, hl, hs]
    · intro hs
      simp [findResumePoint, hl, hs]

/-- Receipt-derived checkpoints used to witness `c2_find_resume_point`. -/
def c2WitReceipts : List Checkpoint :=
  [⟨"step-0", "build", "r1", 0, "succeeded", "p0", none, none⟩,
   ⟨"step-1", "build", "r1", 1, "failed", "p1", none, none⟩]

/-- Witness for C2: on a concrete receipt list whose highest-index
checkpoint failed, the resume point is `retry` at the same index. -/
theorem c2_find_resume_point_witness :
    findResumePoint "build" c2WitReceipts =
      ⟨"build", "step-1", 1, "retry",
        "Last step \x27step-1\x27 failed; retrying",
        some ⟨"step-1", "build", "r1", 1, "failed", "p1", none, none⟩⟩ :=
  ((c2_find_resume_point "build" c2WitReceipts).2.2
      ⟨"step-1", "build", "r1", 1, "failed", "p1", none, none⟩
      (by simp [getLastCheckpoint, listCheckpoints, c2WitReceipts,
        List.mergeSort])).2.2.2
    (by simp)

/-!
## `swarm/runtime/routing_helpers.py` — claim C5

`MicroloopState.can_further_iteration_help` is typed
`Union[str, bool, None]` in the callers (`_normalize_can_help` accepts all
three), which we embed as the inductive `CanHelp`.
-/

/-- The `Union[str, bool, None]` value of `can_further_iteration_help`. -/
inductive CanHelp where
  | vnone
  | vbool (b : Bool)
  | vstr (s : String)

/-- `_normalize_can_help`: `None` defaults to true (help assumed possible),
booleans pass through, strings are lowercased and compared against
`("yes", "true", "1")`. -/
def normalizeCanHelp : CanHelp → Bool
  | .vnone => true
  | .vbool b => b
  | .vstr s => pyLower s = "yes" || pyLower s = "true" || pyLower s = "1"

/-- `MicroloopState` dataclass. -/
structure MicroloopState where
  current_iteration : Int
  max_iterations : Int
  status : String
  can_further_iteration_help : CanHelp
  success_values : List String

namespace MicroloopState

/-- `MicroloopState.is_status_success`: case-insensitive membership of
`status` in `success_values` (an empty status short-circuits to `""`). -/
def isStatusSuccess (s : MicroloopState) : Bool :=
  let status_upper := if s.status ≠ "" then pyUpper s.status else ""
  status_upper ∈ s.success_values.map pyUpper

/-- `MicroloopState.is_at_max_iterations`. -/
def isAtMaxIterations (s : MicroloopState) : Bool :=
  s.current_iteration ≥ s.max_iterations

/-- `MicroloopState.can_help`. -/
def canHelp (s : MicroloopState) : Bool :=
  normalizeCanHelp s.can_further_iteration_help

end MicroloopState

/-- `should_exit_microloop`: priority-ordered exit decision, returning
`(should_exit, reason)`. -/
def shouldExitMicroloop (s : MicroloopState) : Bool × String :=
  if s.isStatusSuccess then (true, "status_verified")
  else if s.isAtMaxIterations then (true, "max_iterations_reached")
  else if !s.canHelp then (true, "no_further_help")
  else (false, "")

/-- C5: the microloop exit predicate decides in priority order — status in
`success_values` (case-insensitively) exits with `status_verified`; else
`current_iteration ≥ max_iterations` exits with `max_iterations_reached`;
else a `can_further_iteration_help` normalizing to "no" exits with
`no_further_help`; otherwise the loop continues — and the normalization
maps the string forms yes/no/true/false (any case) to their boolean and
treats `None` as help being possible. -/
theorem c5_should_exit_microloop (s : MicroloopState) :
    ((pyUpper s.status ∈ s.success_values.map pyUpper) →
      shouldExitMicroloop s = (true, "status_verified")) ∧
    (pyUpper s.status ∉ s.success_values.map pyUpper →
      s.current_iteration ≥ s.max_iterations →
      shouldExitMicroloop s = (true, "max_iterations_reached")) ∧
    (pyUpper s.status ∉ s.success_values.map pyUpper →
      s.current_iteration < s.max_iterations →
      normalizeCanHelp s.can_further_iteration_help = false →
      shouldExitMicroloop s = (true, "no_further_help")) ∧
    (pyUpper s.status ∉ s.success_values.map pyUpper →
      s.current_iteration < s.max_iterations →
      normalizeCanHelp s.can_further_iteration_help = true →
      shouldExitMicroloop s = (false, "")) ∧
    (normalizeCanHelp .vnone = true ∧
      (∀ t : String, pyLower t = "yes" → normalizeCanHelp (.vstr t) = true) ∧
      (∀ t : String, pyLower t = "true" → normalizeCanHelp (.vstr t) = true) ∧
      (∀ t : String, pyLower t = "no" → normalizeCanHelp (.vstr t) = false) ∧
      (∀ t : String, pyLower t = "false" → normalizeCanHelp (.vstr t) = false) ∧
      (∀ b : Bool, normalizeCanHelp (.vbool b) = b)) := by
  have h0 : pyUpper "" = "" := rfl
  have hsucc : s.isStatusSuccess =
      (decide (pyUpper s.status ∈ s.success_values.map pyUpper)) := by
    by_cases h : s.status = ""
    · simp [MicroloopState.isStatusSuccess, h, h0]
    · simp [MicroloopState.isStatusSuccess, h]
  refine ⟨?_, ?_, ?_, ?_, ?_⟩
  · intro h
    simp [shouldExitMicroloop, hsucc, h]
  · intro h hmax
    simp [shouldExitMicroloop, hsucc, h, MicroloopState.isAtMaxIterations, hmax]
  · intro h hlt hn
    simp [shouldExitMicroloop, hsucc, h, MicroloopState.isAtMaxIterations,
      not_le.mpr hlt, MicroloopState.canHelp, hn]
  · intro h hlt hn
    simp [shouldExitMicroloop, hsucc, h, MicroloopState.isAtMaxIterations,
      not_le.mpr hlt, MicroloopState.canHelp, hn]
  · refine ⟨rfl, ?_, ?_, ?_, ?_, fun b => rfl⟩ <;>
      intro t ht <;> simp [normalizeCanHelp, ht]

/-- Witness for C5: a concrete state with `UNVERIFIED` status, iterations
left and `can_further_iteration_help = "no"` exits with `no_further_help`. -/
theorem c5_should_exit_microloop_witness :
    shouldExitMicroloop ⟨2, 5, "UNVERIFIED", .vstr "no", ["VERIFIED"]⟩ =
      (true, "no_further_help") :=
  (c5_should_exit_microloop
      ⟨2, 5, "UNVERIFIED", .vstr "no", ["VERIFIED"]⟩).2.2.1
    (by decide) (by decide) (by decide)

/-!
## `swarm/runtime/progress_tracker.py` — claim C7

`ProgressTracker.is_stalled` and `get_velocity` read only the
`error_signatures` list and the `stall_threshold`, so we embed them as
functions of those two values.  `sigs[-k:]` is Python slicing: for
`k = 0` it is the whole list, not the empty suffix.
-/

/-- Python slice `l[-k:]` (for `k = 0` this is `l[0:]`, the whole list). -/
def pyLastSlice {α : Type} (l : List α) (k : Nat) : List α :=
  if k = 0 then l else l.drop (l.length - k)

/-- `len(set(l))`: the number of distinct elements. -/
def distinctCount (l : List String) : Nat := l.dedup.length

/-- `ProgressTracker.is_stalled`: true when at least `stall_threshold`
signatures exist and the last `stall_threshold` of them are identical. -/
def isStalled (stall_threshold : Nat) (error_signatures : List String) :
    Bool :=
  if error_signatures.length < stall_threshold then false
  else distinctCount (pyLastSlice error_signatures stall_threshold) = 1

/-- `ProgressTracker.get_velocity`: distinct-signature ratio over the
recent window of `min(len, stall_threshold)` signatures. -/
def getVelocity (stall_threshold : Nat) (error_signatures : List String) :
    Rat :=
  if error_signatures.length < 2 then 1
  else
    let window := min error_signatures.length stall_threshold
    let recent := pyLastSlice error_signatures window
    (distinctCount recent : Rat) / (recent.length : Rat)

/-- The last `k` elements of a list, as the claim reads it (for `k = 0`
this is the empty list). -/
def lastN {α : Type} (l : List α) (k : Nat) : List α :=
  l.drop (l.length - k)

/-- All elements of a list are equal. -/
def allEqual (l : List String) : Prop := ∀ a ∈ l, ∀ b ∈ l, a = b

theorem dedup_length_one_iff {l : List String} (hne : l ≠ []) :
    l.dedup.length = 1 ↔ allEqual l := by
  constructor
  · intro h a ha b hb
    rcases List.length_eq_one.mp h with ⟨c, hc⟩
    have ha' : a = c := by
      have := List.mem_dedup.mpr ha
      rw [hc] at this
      simpa using this
    have hb' : b = c := by
      have := List.mem_dedup.mpr hb
      rw [hc] at this
      simpa using this
    rw [ha', hb']
  · intro hall
    rcases List.exists_mem_of_ne_nil l hne with ⟨c, hc⟩
    have hmemdd : ∀ x ∈ l.dedup, x = c := fun x hx =>
      hall x (List.mem_dedup.mp hx) c hc
    have hcd : c ∈ l.dedup := List.mem_dedup.mpr hc
    have hnd := l.nodup_dedup
    match hdd : l.dedup with
    | [] => rw [hdd] at hcd; simp at hcd
    | [x] => rfl
    | x :: y :: rest =>
      rw [hdd] at hmemdd hnd
      have hx : x = c := hmemdd x (by simp)
      have hy : y = c := hmemdd y (by simp)
      rw [List.nodup_cons] at hnd
      exact absurd (by simp [hx, hy]) hnd.1

/-- C7 counterexample: at threshold `t = 0` with an empty history the
claim's right-hand side holds (at least 0 signatures recorded, and the
last 0 signatures are vacuously all equal) yet `is_stalled` returns
false, because the Python slice `sigs[-0:]` is the whole (empty) list and
`len(set([])) ≠ 1`. -/
theorem c7_stall_counterexample :
    (0 ≤ ([] : List String).length ∧ allEqual (lastN ([] : List String) 0)) ∧
      isStalled 0 [] = false :=
  ⟨⟨Nat.zero_le _, by intro a ha; simp [lastN] at ha⟩, rfl⟩

/-- C7 (amended): for every tracker with threshold `t ≥ 1`, `is_stalled`
is true iff at least `t` signatures were recorded and the last `t` are
all equal, and `get_velocity` is the number of distinct signatures in the
window of the last `min(len, t)` signatures divided by the window length
(histories shorter than two signatures yield velocity 1). -/
theorem c7_stall_and_velocity (t : Nat) (sigs : List String) (ht : 1 ≤ t) :
    (isStalled t sigs = true ↔ t ≤ sigs.length ∧ allEqual (lastN sigs t)) ∧
    (2 ≤ sigs.length →
      getVelocity t sigs =
        (distinctCount (lastN sigs (min sigs.length t)) : Rat) /
          ((min sigs.length t : Nat) : Rat)) ∧
    (sigs.length < 2 → getVelocity t sigs = 1) := by
  have htne : t ≠ 0 := by omega
  have hslice : ∀ k : Nat, k ≠ 0 → pyLastSlice sigs k = lastN sigs k := by
    intro k hk
    simp [pyLastSlice, lastN, hk]
  refine ⟨?_, ?_, ?_⟩
  · by_cases hlen : sigs.length < t
    · simp only [isStalled, hlen, if_true]
      constructor
      · intro h; exact absurd h (by simp)
      · intro ⟨h, _⟩; omega
    · push_neg at hlen
      have hlast_len : (lastN sigs t).length = t := by
        simp [lastN]; omega
      have hlast_ne : lastN sigs t ≠ [] := by
        intro h
        rw [h] at hlast_len
        simp at hlast_len
        omega
      simp only [isStalled, if_neg (by omega : ¬sigs.length < t),
        hslice t htne, distinctCount, decide_eq_true_eq]
      rw [dedup_length_one_iff hlast_ne]
      exact ⟨fun h => ⟨hlen, h⟩, fun ⟨_, h⟩ => h⟩
  · intro hlen
    have hw : min sigs.length t ≠ 0 := by
      simp only [ne_eq, Nat.min_eq_zero_iff]
      omega
    have hrec_len : (lastN sigs (min sigs.length t)).length =
        min sigs.length t := by
      simp [lastN]; omega
    simp only [getVelocity, if_neg (by omega : ¬sigs.length < 2),
      hslice _ hw, hrec_len]
  · intro hlen
    simp [getVelocity, hlen]

/-- Witness for C7: with threshold 3 and three identical signatures the
tracker reports a stall. -/
theorem c7_stall_and_velocity_witness :
    isStalled 3 ["e1", "e1", "e1"] = true :=
  (c7_stall_and_velocity 3 ["e1", "e1", "e1"] (by decide)).1.mpr
    ⟨by decide, by intro a ha b hb; simp [lastN] at ha hb; rw [ha, hb]⟩

/-!
## `swarm/runtime/stepwise/routing/utility_candidates.py` — claim C4

The trigger detector itself (`swarm/runtime/utility_flow_injection.py`) is
not in the source tree, so its output record and the registry metadata are
modelled from the spec; the candidate-emission logic of
`get_utility_flow_candidates` is embedded from the source as a function of
the detector's trigger result (the `repo_root` plumbing and per-repo
caches are I/O and do not affect the emitted candidate).
-/

/-- `RoutingCandidate` record. -/
structure RoutingCandidate where
  candidate_id : String
  action : String
  target_node : Option String
  reason : String
  priority : Int
  source : String
  evidence_pointers : List String
  is_default : Bool

/-- Modelled from the spec: the trigger-detection result
`{triggered, trigger_type, flow_id, reason, priority, evidence: {k:v}}`
returned by `InjectionTriggerDetector.check_triggers`
(`swarm/runtime/utility_flow_injection.py` is not in the source tree). -/
structure TriggerResult where
  triggered : Bool
  trigger_type : String
  flow_id : String
  reason : String
  priority : Int
  evidence : List (String × String)

/-- Modelled from the spec: utility-flow registry metadata
`{flow_id, flow_number, injection_trigger, on_complete_next_flow,
on_complete_reason, on_failure_next_flow, pass_artifacts, node_ids,
first_node_id}` (`swarm/runtime/utility_flow_injection.py` is not in the
source tree). -/
structure UtilityFlowMeta where
  flow_id : String
  flow_number : Int
  injection_trigger : String
  on_complete_next_flow : Option String
  on_complete_reason : Option String
  on_failure_next_flow : Option String
  pass_artifacts : Bool
  node_ids : List String
  first_node_id : String

/-- `UTILITY_SOURCE` constant. -/
def UTILITY_SOURCE : String := "utility_flow_detector"

/-- `INJECT_PREFIX` constant. -/
def INJECT_PREFIX : String := "inject_flow:"

/-- `get_utility_flow_candidates`, as a function of the detector's trigger
result: one `inject_flow` candidate when a trigger fired with a flow id,
else none. -/
def getUtilityFlowCandidates (tr : TriggerResult) : List RoutingCandidate :=
  if tr.triggered ∧ tr.flow_id ≠ "" then
    [{ candidate_id := INJECT_PREFIX ++ tr.flow_id,
       action := "inject_flow",
       target_node := some tr.flow_id,
       reason := tr.reason,
       priority := tr.priority,
       source := UTILITY_SOURCE,
       evidence_pointers :=
         ("trigger:" ++ tr.trigger_type) ::
           tr.evidence.map (fun kv => kv.1 ++ ":" ++ kv.2),
       is_default := false }]
  else []

/-- The `reset` utility flow as the spec describes it: the flow id is
`"reset"` while the first node of its 8-step graph has its own id. -/
def c4ResetFlow : UtilityFlowMeta :=
  ⟨"reset", 0, "upstream_diverged", some "build", some "resume after reset",
    none, true, ["reset-1", "reset-2"], "reset-1"⟩

/-- The trigger result the spec's divergence scenario produces. -/
def c4Trigger : TriggerResult :=
  ⟨true, "upstream_diverged", "reset", "Upstream diverged", 75,
    [("behind_count", "5")]⟩

/-- C4 counterexample: for the triggered `reset` utility flow the emitted
candidate's `target_node` is the flow id `"reset"`, not the flow's first
node id `"reset-1"`: the code passes `trigger_result.flow_id` as
`target_node`. -/
theorem c4_target_node_counterexample :
    c4ResetFlow.first_node_id = "reset-1" ∧
    (getUtilityFlowCandidates c4Trigger).map RoutingCandidate.target_node =
      [some "reset"] ∧
    (getUtilityFlowCandidates c4Trigger).map RoutingCandidate.target_node ≠
      [some c4ResetFlow.first_node_id] := by
  refine ⟨rfl, ?_, ?_⟩ <;> simp [getUtilityFlowCandidates, c4Trigger,
    c4ResetFlow, INJECT_PREFIX, UTILITY_SOURCE]

/-- C4 (amended): every triggered utility-flow detection with a flow id
emits exactly one candidate `inject_flow:<id>` with action `inject_flow`,
`target_node` equal to the triggered utility flow's id, source
`utility_flow_detector`, evidence pointers beginning with
`trigger:<type>` followed by the evidence `key:value` pairs, and
`is_default = false`; and utility-flow candidates never have
`is_default = true`. -/
theorem c4_utility_flow_candidates (tr : TriggerResult)
    (h1 : tr.triggered = true) (h2 : tr.flow_id ≠ "") :
    getUtilityFlowCandidates tr =
      [{ candidate_id := "inject_flow:" ++ tr.flow_id,
         action := "inject_flow",
         target_node := some tr.flow_id,
         reason := tr.reason,
         priority := tr.priority,
         source := "utility_flow_detector",
         evidence_pointers :=
           ("trigger:" ++ tr.trigger_type) ::
             tr.evidence.map (fun kv => kv.1 ++ ":" ++ kv.2),
         is_default := false }] ∧
    (∀ tr' : TriggerResult, ∀ c ∈ getUtilityFlowCandidates tr',
      c.is_default = false) := by
  constructor
  · simp [getUtilityFlowCandidates, h1, h2, INJECT_PREFIX, UTILITY_SOURCE]
  · intro tr' c hc
    by_cases h : tr'.triggered ∧ tr'.flow_id ≠ ""
    · simp [getUtilityFlowCandidates, h] at hc
      rw [hc]
    · simp [getUtilityFlowCandidates, h] at hc

/-- Witness for C4: the concrete divergence trigger emits exactly the
expected single candidate. -/
theorem c4_utility_flow_candidates_witness :
    getUtilityFlowCandidates c4Trigger =
      [{ candidate_id := "inject_flow:reset",
         action := "inject_flow",
         target_node := some "reset",
         reason := "Upstream diverged",
         priority := 75,
         source := "utility_flow_detector",
         evidence_pointers := ["trigger:upstream_diverged", "behind_count:5"],
         is_default := false }] :=
  ((c4_utility_flow_candidates c4Trigger rfl (by decide)).1).trans (by
    simp [c4Trigger])

/-!
## `swarm/runtime/boundary_enforcement.py` — claim C8

`BoundaryScanner.scan` compares workspace-state snapshots.  Its only
external inputs are the workspace (only `is_shadow()` and `root()` are
consulted), filesystem path resolution (whether a changed path resolves
outside the workspace root, passed in as the predicate `outside`), the
baseline snapshot, and the clock (`now`).  Python `set` iteration order is
arbitrary; the `changed_files` sets are modelled as lists in some
iteration order, which only permutes the returned violation list.
-/

/-- `ViolationSeverity` enum. -/
inductive ViolationSeverity where
  | INFO
  | WARNING
  | ERROR
  | CRITICAL
deriving DecidableEq

/-- `ViolationType` enum. -/
inductive ViolationType where
  | WRITE_OUTSIDE_WORKSPACE
  | REAL_REPO_MODIFICATION
  | UNAUTHORIZED_PUSH
  | MAIN_BRANCH_MUTATION
  | FORCE_OPERATION
  | SECRET_EXPOSURE
deriving DecidableEq

/-- `Violation` dataclass. -/
structure Violation where
  vtype : ViolationType
  severity : ViolationSeverity
  path : String
  operation : String
  detail : String
  step_id : String
  timestamp : String
  remediation : String
deriving DecidableEq

/-- `WorkspaceState` snapshot. -/
structure WorkspaceState where
  timestamp : String
  git_status : String
  git_ref : String
  changed_files : List String
  real_repo_ref : String
  real_repo_files : List String

/-- `BoundaryScanner.PROTECTED_PATHS`. -/
def PROTECTED_PATHS : List String :=
  [".git/config", ".git/hooks/pre-push", ".gitignore"]

/-- `BoundaryScanner.FORCE_PATTERNS` (defined by the scanner class but
never consulted by `scan` or any helper). -/
def FORCE_PATTERNS : List String :=
  ["push --force", "push -f", "reset --hard", "clean -fd", "checkout --force"]

/-- `BoundaryScanner.SECRET_PATTERNS`. -/
def SECRET_PATTERNS : List String :=
  [".env", "credentials", "secrets", "api_key", "password", "token"]

/-- Substring scan: is `needle` a prefix of some suffix of `hay`? -/
def containsAux (needle : List Char) : List Char → Bool
  | [] => needle.isEmpty
  | c :: t => needle.isPrefixOf (c :: t) || containsAux needle t

/-- Python `needle in hay` on strings (substring containment). -/
def strContains (hay needle : String) : Bool :=
  containsAux needle.data hay.data

/-- Python `s[:n]`. -/
def pyTake (s : String) (n : Nat) : String := ⟨s.data.take n⟩

/-- `BoundaryScanner._check_write_violations`: one ERROR per changed file
resolving outside the workspace root (`outside` models the
`Path.relative_to` failure). -/
def checkWriteViolations (outside : String → Bool) (workspace_root : String)
    (step_id now : String) (current : WorkspaceState) : List Violation :=
  current.changed_files.filterMap fun file_path =>
    if outside file_path then
      some ⟨ViolationType.WRITE_OUTSIDE_WORKSPACE, ViolationSeverity.ERROR,
        file_path, "write",
        "File " ++ file_path ++ " is outside workspace root " ++
          workspace_root,
        step_id, now,
        "Ensure all writes go to workspace.root() or RUN_BASE"⟩
    else none

/-- `BoundaryScanner._check_shadow_violations`: CRITICAL when the real
repo HEAD moved relative to a present baseline. -/
def checkShadowViolations (baseline : Option WorkspaceState)
    (step_id now : String) (current : WorkspaceState) : List Violation :=
  match baseline with
  | none => []
  | some base =>
      if current.real_repo_ref ≠ "" ∧ base.real_repo_ref ≠ "" ∧
          current.real_repo_ref ≠ base.real_repo_ref then
        [⟨ViolationType.REAL_REPO_MODIFICATION, ViolationSeverity.CRITICAL,
          "HEAD", "commit/reset",
          "Real repo HEAD changed from " ++ pyTake base.real_repo_ref 8 ++
            " to " ++ pyTake current.real_repo_ref 8,
          step_id, now,
          "Shadow mode should not modify real repo. Check for escaped git commands."⟩]
      else []

/-- `BoundaryScanner._check_protected_paths`: a WARNING per
(changed file, protected path) substring hit. -/
def checkProtectedPaths (step_id now : String) (current : WorkspaceState) :
    List Violation :=
  current.changed_files.flatMap fun file_path =>
    PROTECTED_PATHS.filterMap fun prot =>
      if strContains file_path prot then
        some ⟨ViolationType.MAIN_BRANCH_MUTATION, ViolationSeverity.WARNING,
          file_path, "modify",
          "Protected path " ++ prot ++ " was modified",
          step_id, now, "Review if this modification is intentional."⟩
      else none

/-- `BoundaryScanner._check_secret_exposure`: at most one WARNING per
changed file, for the first matching secret pattern. -/
def checkSecretExposure (step_id now : String) (current : WorkspaceState) :
    List Violation :=
  current.changed_files.flatMap fun file_path =>
    match SECRET_PATTERNS.find? (fun p => strContains (pyLower file_path) p) with
    | some pattern =>
        [⟨ViolationType.SECRET_EXPOSURE, ViolationSeverity.WARNING,
          file_path, "modify",
          "File " ++ file_path ++ " may contain secrets (matched \x27" ++
            pattern ++ "\x27)",
          step_id, now,
          "Review file for sensitive data before committing."⟩]
    | none => []

/-- `BoundaryScanner.scan` on an already-captured `current_state`. -/
def scanViolations (is_shadow : Bool) (outside : String → Bool)
    (workspace_root step_id now : String) (baseline : Option WorkspaceState)
    (current : WorkspaceState) : List Violation :=
  checkWriteViolations outside workspace_root step_id now current
    ++ (if is_shadow then checkShadowViolations baseline step_id now current
        else [])
    ++ checkProtectedPaths step_id now current
    ++ checkSecretExposure step_id now current

/-- C8: contrary to the claim, `scan` never reports a `FORCE_OPERATION`
violation on any input: `FORCE_PATTERNS` is declared by the scanner class
but no check consults it, and `scan` receives no observed commands at
all, so every violation it returns has a different type. -/
theorem c8_scan_never_reports_force (is_shadow : Bool)
    (outside : String → Bool) (workspace_root step_id now : String)
    (baseline : Option WorkspaceState) (current : WorkspaceState) :
    ∀ v ∈ scanViolations is_shadow outside workspace_root step_id now
        baseline current,
      v.vtype ≠ ViolationType.FORCE_OPERATION := by
  intro v hv
  simp only [scanViolations, List.mem_append] at hv
  rcases hv with ((hv | hv) | hv) | hv
  · rcases List.mem_filterMap.mp hv with ⟨f, _, hf⟩
    by_cases h : outside f = true <;> simp [h] at hf <;> simp [← hf]
  · by_cases hs : is_shadow = true
    · rw [hs, if_pos rfl] at hv
      rcases baseline with _ | base
      · simp [checkShadowViolations] at hv
      · simp only [checkShadowViolations] at hv
        by_cases h : current.real_repo_ref ≠ "" ∧ base.real_repo_ref ≠ "" ∧
            current.real_repo_ref ≠ base.real_repo_ref
        · rw [if_pos h, List.mem_singleton] at hv
          simp [hv]
        · rw [if_neg h] at hv
          simp at hv
    · simp at hs
      rw [hs] at hv
      simp at hv
  · rcases List.mem_flatMap.mp hv with ⟨f, _, hf⟩
    rcases List.mem_filterMap.mp hf with ⟨p, _, hp⟩
    by_cases h : strContains f p = true <;> simp [h] at hp <;> simp [← hp]
  · rcases List.mem_flatMap.mp hv with ⟨f, _, hf⟩
    match hfind : SECRET_PATTERNS.find?
        (fun p => strContains (pyLower f) p) with
    | some pattern => rw [hfind] at hf; simp at hf; simp [hf]
    | none => rw [hfind] at hf; simp at hf

/-- Witness for C8: a concrete scan over a changed `.env` file returns a
violation, and it is not a `FORCE_OPERATION`. -/
theorem c8_scan_never_reports_force_witness :
    (⟨ViolationType.SECRET_EXPOSURE, ViolationSeverity.WARNING,
        "config/.env", "modify",
        "File config/.env may contain secrets (matched \x27.env\x27)",
        "step-1", "t0",
        "Review file for sensitive data before committing."⟩ :
      Violation).vtype ≠ ViolationType.FORCE_OPERATION :=
  c8_scan_never_reports_force false (fun _ => false) "/ws" "step-1" "t0"
    none ⟨"t0", "", "ref", ["config/.env"], "", []⟩ _ (List.Mem.head _)

/-!
## `swarm/runtime/state_builder.py` — claim C1

The reducer `_apply_event` / `_apply_step_completed` is in the source
tree; the state types it imports (`RunState`, `HandoffEnvelope`,
`RunState.mark_node_completed`, `handoff_envelope_from_dict` from
`swarm/runtime/types/`) are not (only `types/tool_call.py` is), so those
are modelled from the spec.  Event payloads are JSON dicts; the reducer
is embedded for payloads whose `step_id` is a string and whose
`next_step_index` is an integer, which is what the engine's own
`step_completed` events contain.
-/

/-- Modelled from the spec: the envelope's
`routing_signal = {decision, next_step_id?, reason?}`. -/
structure RoutingSignal where
  decision : String
  next_step_id : Option String
  reason : Option String

/-- Modelled from the spec: the per-step handoff envelope record
(`swarm/runtime/types/` state types are not in the source tree). -/
structure HandoffEnvelope where
  step_id : String
  flow_key : String
  run_id : String
  status : String
  can_further_iteration_help : CanHelp
  summary : String
  routing_signal : RoutingSignal
  assumptions_made : List String
  decisions_made : List String
  artifacts : List String
  critique : Option String

/-- Read a string-valued key from a JSON dict. -/
def getStrField (kvs : List (String × PyVal)) (k : String) : Option String :=
  match pyGet kvs k with
  | some (.pystr s) => some s
  | _ => none

/-- Read a list-of-strings key from a JSON dict (missing key: empty). -/
def getStrList (kvs : List (String × PyVal)) (k : String) : List String :=
  match pyGet kvs k with
  | some (.pylist xs) =>
      xs.filterMap fun v => match v with | .pystr s => some s | _ => none
  | _ => []

/-- The boolean-like `can_further_iteration_help` JSON value. -/
def canHelpFromVal : PyVal → CanHelp
  | .pybool b => .vbool b
  | .pystr s => .vstr s
  | _ => .vnone

/-- Modelled from the spec: `handoff_envelope_from_dict`, which parses an
envelope payload and raises `KeyError`/`TypeError` (here: `none`) when the
required fields are missing or ill-typed. -/
def handoffEnvelopeFromDict : PyVal → Option HandoffEnvelope
  | .pydict kvs => do
      let step_id ← getStrField kvs "step_id"
      let flow_key ← getStrField kvs "flow_key"
      let run_id ← getStrField kvs "run_id"
      let status ← getStrField kvs "status"
      let rs : RoutingSignal :=
        match pyGet kvs "routing_signal" with
        | some (.pydict rkvs) =>
            ⟨(getStrField rkvs "decision").getD "",
              getStrField rkvs "next_step_id", getStrField rkvs "reason"⟩
        | _ => ⟨"", none, none⟩
      some ⟨step_id, flow_key, run_id, status,
        canHelpFromVal ((pyGet kvs "can_further_iteration_help").getD .pynone),
        (getStrField kvs "summary").getD "", rs,
        getStrList kvs "assumptions_made", getStrList kvs "decisions_made",
        getStrList kvs "artifacts", getStrField kvs "critique"⟩
  | _ => none

/-- `RunEvent` record (timestamps carried as ISO strings). -/
structure RunEvent where
  run_id : String
  ts : Option String
  kind : String
  flow_key : Option String
  step_id : Option String
  payload : Option (List (String × PyVal))

/-- Modelled from the spec: the `RunState` fields compared after replay
(`swarm/runtime/types/` state types are not in the source tree). -/
structure RunState where
  run_id : String
  flow_key : String
  status : String
  current_flow_index : Int
  current_step_id : Option String
  step_index : Int
  completed_nodes : List String
  loop_state : List (String × Int)
  handoff_envelopes : List (String × HandoffEnvelope)
  injected_nodes : List String
  timestamp : Option String

/-- Modelled from the spec: `RunState.mark_node_completed` adds the node
id to the `completed_nodes` set. -/
def markNodeCompleted (st : RunState) (node : String) : RunState :=
  { st with completed_nodes :=
      if node ∈ st.completed_nodes then st.completed_nodes
      else st.completed_nodes ++ [node] }

/-- `step_id = event.step_id or payload.get("step_id")` followed by the
`if step_id:` truthiness guard (an empty string falls through the `or`
and fails the guard). -/
def effectiveStepId (event : RunEvent) (payload : List (String × PyVal)) :
    Option String :=
  let fromPayload : Option String :=
    match pyGet payload "step_id" with
    | some (.pystr s) => if s ≠ "" then some s else none
    | _ => none
  match event.step_id with
  | some s => if s ≠ "" then some s else fromPayload
  | none => fromPayload

/-- `_apply_step_completed`: mark the node completed, store the parsed
envelope when the payload carries a truthy, parseable one, and set
`step_index` from `next_step_index` when that key is present. -/
def applyStepCompleted (state : RunState) (event : RunEvent)
    (payload : List (String × PyVal)) : RunState :=
  match effectiveStepId event payload with
  | none => state
  | some sid =>
      let st := markNodeCompleted state sid
      let st :=
        match pyGet payload "envelope" with
        | some ed =>
            if pyTruthy ed then
              match handoffEnvelopeFromDict ed with
              | some env =>
                  { st with handoff_envelopes :=
                      (pySet st.handoff_envelopes sid env) }
              | none => st
            else st
        | none => st
      match pyGet payload "next_step_index" with
      | some (.pyint n) => { st with step_index := n }
      | some _ => st
      | none => st

/-- `_apply_event` restricted to events of kind `step_completed`: update
the state timestamp from the event, then dispatch to
`_apply_step_completed` with `payload = event.payload or {}`. -/
def applyEventStepCompleted (state : RunState) (event : RunEvent) :
    RunState :=
  applyStepCompleted { state with timestamp := event.ts } event
    (event.payload.getD [])

theorem mem_markNodeCompleted_self (st : RunState) (node : String) :
    node ∈ (markNodeCompleted st node).completed_nodes := by
  by_cases h : node ∈ st.completed_nodes <;> simp [markNodeCompleted, h]

theorem mem_markNodeCompleted_of_mem (st : RunState) (node n : String)
    (h : n ∈ st.completed_nodes) :
    n ∈ (markNodeCompleted st node).completed_nodes := by
  by_cases h' : node ∈ st.completed_nodes
  · simpa [markNodeCompleted, h'] using h
  · simp only [markNodeCompleted, h', if_false, List.mem_append]
    exact Or.inl h

theorem assocGet_pySet_self {α : Type} (kvs : List (String × α)) (k : String)
    (v : α) : assocGet (pySet kvs k v) k = some v := by
  induction kvs with
  | nil => simp [pySet, assocGet]
  | cons hd tl ih =>
      obtain ⟨k', v'⟩ := hd
      by_cases h : k' = k <;> simp [pySet, assocGet, h, ih]

/-- The state used in the C1 counterexample: `step_index = 5`. -/
def c1CexState : RunState :=
  ⟨"run-1", "build", "running", 1, some "a", 5, [], [], [], [], none⟩

/-- A `step_completed` event whose payload has no `next_step_index`. -/
def c1CexEvent : RunEvent :=
  ⟨"run-1", some "t1", "step_completed", some "build", some "a", some []⟩

/-- C1 counterexample: a `step_completed` event carrying a step id whose
payload lacks `next_step_index` marks the node completed but leaves
`step_index` unchanged at 5 — the reducer does not advance it. -/
theorem c1_step_completed_counterexample :
    (applyEventStepCompleted c1CexState c1CexEvent).completed_nodes = ["a"] ∧
    c1CexState.step_index = 5 ∧
    (applyEventStepCompleted c1CexState c1CexEvent).step_index = 5 :=
  ⟨rfl, rfl, rfl⟩

/-- C1 (amended): for every run state and `step_completed` event carrying
a step id, the reducer adds the step id to `completed_nodes` (preserving
the previously completed set), stores the payload's envelope under that
step id when present (truthy) and parseable, and sets `step_index` to the
payload's `next_step_index` when that key is present, leaving it
unchanged when the key is absent. -/
theorem c1_apply_step_completed (state : RunState) (event : RunEvent)
    (sid : String)
    (hsid : effectiveStepId event (event.payload.getD []) = some sid) :
    (sid ∈ (applyEventStepCompleted state event).completed_nodes ∧
      ∀ n ∈ state.completed_nodes,
        n ∈ (applyEventStepCompleted state event).completed_nodes) ∧
    (∀ ed env, pyGet (event.payload.getD []) "envelope" = some ed →
      pyTruthy ed = true → handoffEnvelopeFromDict ed = some env →
      assocGet (applyEventStepCompleted state event).handoff_envelopes sid =
        some env) ∧
    (∀ n : Int,
      pyGet (event.payload.getD []) "next_step_index" = some (.pyint n) →
      (applyEventStepCompleted state event).step_index = n) ∧
    (pyGet (event.payload.getD []) "next_step_index" = none →
      (applyEventStepCompleted state event).step_index = state.step_index) := by
  unfold applyEventStepCompleted applyStepCompleted
  rw [hsid]
  set st0 : RunState := { state with timestamp := event.ts } with hst0
  refine ⟨⟨?_, ?_⟩, ?_, ?_⟩
  · cases henv : pyGet (event.payload.getD []) "envelope" with
    | none =>
        cases hnext : pyGet (event.payload.getD []) "next_step_index" with
        | none => exact mem_markNodeCompleted_self st0 sid
        | some v =>
            cases v <;>
              simp [markNodeCompleted] <;>
              exact mem_markNodeCompleted_self st0 sid
    | some ed =>
        by_cases ht : pyTruthy ed = true
        · cases hparse : handoffEnvelopeFromDict ed with
          | none =>
              simp only [ht, if_true, hparse]
              cases hnext : pyGet (event.payload.getD []) "next_step_index" with
              | none => exact mem_markNodeCompleted_self st0 sid
              | some v =>
                  cases v <;> simp <;> exact mem_markNodeCompleted_self st0 sid
          | some env =>
              simp only [ht, if_true, hparse]
              cases hnext : pyGet (event.payload.getD []) "next_step_index" with
              | none => exact mem_markNodeCompleted_self st0 sid
              | some v =>
                  cases v <;> simp <;> exact mem_markNodeCompleted_self st0 sid
        · simp only [Bool.not_eq_true] at ht
          simp only [ht, Bool.false_eq_true, if_false]
          cases hnext : pyGet (event.payload.getD []) "next_step_index" with
          | none => exact mem_markNodeCompleted_self st0 sid
          | some v =>
              cases v <;> simp <;> exact mem_markNodeCompleted_self st0 sid
  · intro n hn
    cases henv : pyGet (event.payload.getD []) "envelope" with
    | none =>
        cases hnext : pyGet (event.payload.getD []) "next_step_index" with
        | none => exact mem_markNodeCompleted_of_mem st0 sid n hn
        | some v =>
            cases v <;> simp <;>
              exact mem_markNodeCompleted_of_mem st0 sid n hn
    | some ed =>
        by_cases ht : pyTruthy ed = true
        · cases hparse : handoffEnvelopeFromDict ed with
          | none =>
              simp only [ht, if_true, hparse]
              cases hnext : pyGet (event.payload.getD []) "next_step_index" with
              | none => exact mem_markNodeCompleted_of_mem st0 sid n hn
              | some v =>
                  cases v <;> simp <;>
                    exact mem_markNodeCompleted_of_mem st0 sid n hn
          | some env =>
              simp only [ht, if_true, hparse]
              cases hnext : pyGet (event.payload.getD []) "next_step_index" with
              | none => exact mem_markNodeCompleted_of_mem st0 sid n hn
              | some v =>
                  cases v <;> simp <;>
                    exact mem_markNodeCompleted_of_mem st0 sid n hn
        · simp only [Bool.not_eq_true] at ht
          simp only [ht, Bool.false_eq_true, if_false]
          cases hnext : pyGet (event.payload.getD []) "next_step_index" with
          | none => exact mem_markNodeCompleted_of_mem st0 sid n hn
          | some v =>
              cases v <;> simp <;>
                exact mem_markNodeCompleted_of_mem st0 sid n hn
  · intro ed env hed ht hparse
    rw [hed]
    simp only [ht, if_true, hparse]
    cases hnext : pyGet (event.payload.getD []) "next_step_index" with
    | none => exact assocGet_pySet_self _ sid env
    | some v => cases v <;> simp <;> exact assocGet_pySet_self _ sid env
  · constructor
    · intro n hn
      rw [hn]
    · intro hn
      rw [hn]
      cases henv : pyGet (event.payload.getD []) "envelope" with
      | none => simp [markNodeCompleted, hst0]
      | some ed =>
          by_cases ht : pyTruthy ed = true
          · cases hparse : handoffEnvelopeFromDict ed <;>
              simp [ht, hparse, markNodeCompleted, hst0]
          · simp only [Bool.not_eq_true] at ht
            simp [ht, markNodeCompleted, hst0]

/-- Envelope payload used in the C1 witness. -/
def c1WitEnvDict : PyVal :=
  .pydict [("step_id", .pystr "a"), ("flow_key", .pystr "build"),
    ("run_id", .pystr "run-1"), ("status", .pystr "succeeded")]

/-- Its parsed form. -/
def c1WitEnv : HandoffEnvelope :=
  ⟨"a", "build", "run-1", "succeeded", .vnone, "", ⟨"", none, none⟩,
    [], [], [], none⟩

/-- A complete `step_completed` event with envelope and next index. -/
def c1WitEvent : RunEvent :=
  ⟨"run-1", some "t1", "step_completed", some "build", some "a",
    some [("envelope", c1WitEnvDict), ("next_step_index", .pyint 3)]⟩

/-- Witness for C1: the concrete event marks `"a"` completed, stores its
parsed envelope, and sets `step_index` to the payload's 3. -/
theorem c1_apply_step_completed_witness :
    "a" ∈ (applyEventStepCompleted c1CexState c1WitEvent).completed_nodes ∧
    assocGet (applyEventStepCompleted c1CexState c1WitEvent).handoff_envelopes
      "a" = some c1WitEnv ∧
    (applyEventStepCompleted c1CexState c1WitEvent).step_index = 3 :=
  ⟨(c1_apply_step_completed c1CexState c1WitEvent "a" rfl).1.1,
   (c1_apply_step_completed c1CexState c1WitEvent "a" rfl).2.1
     c1WitEnvDict c1WitEnv rfl rfl rfl,
   (c1_apply_step_completed c1CexState c1WitEvent "a" rfl).2.2.1 3 rfl⟩

/-!
## `swarm/runtime/context_budget.py` — claim C3

The enforcer's token counter defaults to tiktoken with a character-count
fallback; it is a constructor parameter, so the embedding is parametrized
by `tc : String → Nat` and the in-repo deterministic fallback
`count_tokens_chars` is embedded separately.  The float expressions in
`_truncate_item` (`len/max(tokens,1)` and the `0.8` word-boundary test)
and in the LOW rule (`budget * 0.1`) are evaluated exactly over the
rationals, i.e. as integer cross-multiplications.  The
`overflow_report` dict is diagnostic logging and is not modelled.
-/

/-- `count_tokens_chars`: the ~4 characters/token estimate. -/
def countTokensChars (text : String) : Nat := text.length / 4

/-- `ContextBudgetEnforcer.count_tokens` with counter `tc`: empty text
short-circuits to 0. -/
def countTokens (tc : String → Nat) (text : String) : Nat :=
  if text = "" then 0 else tc text

/-- `Priority` IntEnum. -/
inductive Priority where
  | LOW
  | MEDIUM
  | HIGH
  | CRITICAL
deriving DecidableEq

/-- The IntEnum values `LOW=1 < MEDIUM=2 < HIGH=3 < CRITICAL=4`. -/
def Priority.value : Priority → Nat
  | .LOW => 1
  | .MEDIUM => 2
  | .HIGH => 3
  | .CRITICAL => 4

/-- `ContentItem` dataclass. -/
structure ContentItem where
  key : String
  content : String
  priority : Priority
  tokens : Nat
  truncated : Bool
  dropped : Bool
  original_tokens : Nat

/-- The token-counting pass at the top of `enforce`: items arriving with
`tokens == 0` get `tokens` and `original_tokens` from the counter. -/
def recountItem (tc : String → Nat) (it : ContentItem) : ContentItem :=
  if it.tokens = 0 then
    let t := countTokens tc it.content
    { it with tokens := t, original_tokens := t }
  else it

/-- Python `s.rfind(" ")`: index of the last space, if any. -/
def rfindSpace (s : String) : Option Nat :=
  match s.data.reverse.findIdx? (· = ' ') with
  | some j => some (s.length - 1 - j)
  | none => none

/-- `ContextBudgetEnforcer._truncate_item`: truncate to `max_tokens`,
preserving the head, cutting at the last word boundary when that cut is
more than 80% of the estimate, and appending the truncation marker. -/
def truncateItem (tc : String → Nat) (item : ContentItem)
    (max_tokens : Int) : ContentItem :=
  if max_tokens ≤ 0 then
    ⟨item.key, "[TRUNCATED: No budget remaining]", item.priority, 10,
      true, false, item.original_tokens⟩
  else
    let marker := "\n\n... [TRUNCATED]"
    let marker_tokens := countTokens tc marker
    let available_tokens : Int := max_tokens - marker_tokens
    if available_tokens ≤ 0 then
      ⟨item.key, "[TRUNCATED]", item.priority, 5, true, false,
        item.original_tokens⟩
    else
      let estimated_chars : Nat :=
        available_tokens.toNat * item.content.length / max item.tokens 1
      let cut := pyTake item.content estimated_chars
      let cut :=
        match rfindSpace cut with
        | some last_space =>
            if 5 * last_space > 4 * estimated_chars then pyTake cut last_space
            else cut
        | none => cut
      let cut := cut ++ marker
      ⟨item.key, cut, item.priority, countTokens tc cut, true, false,
        item.original_tokens⟩

/-- The sort key of `_load_by_priority`: ascending in
`(-priority.value, original index)`. -/
def priorityLe (a b : Nat × ContentItem) : Bool :=
  decide (b.2.priority.value < a.2.priority.value) ||
    (decide (a.2.priority.value = b.2.priority.value) && decide (a.1 ≤ b.1))

/-- The priority-walk loop of `_load_by_priority` over the sorted
`enumerate(items)` list, with the running `used` token count. -/
def loadItems (tc : String → Nat) (budget : Int) :
    List (Nat × ContentItem) → Nat → List ContentItem × List ContentItem
  | [], _ => ([], [])
  | (_, item) :: rest, used =>
      let remaining : Int := budget - (used : Int)
      match item.priority with
      | .CRITICAL =>
          let r := loadItems tc budget rest (used + item.tokens)
          (item :: r.1, r.2)
      | .HIGH =>
          if (item.tokens : Int) ≤ remaining then
            let r := loadItems tc budget rest (used + item.tokens)
            (item :: r.1, r.2)
          else if 100 ≤ remaining then
            let t := truncateItem tc item remaining
            let r := loadItems tc budget rest (used + t.tokens)
            (t :: r.1, r.2)
          else
            let r := loadItems tc budget rest used
            (r.1, { item with dropped := true } :: r.2)
      | .MEDIUM =>
          if (item.tokens : Int) ≤ remaining then
            let r := loadItems tc budget rest (used + item.tokens)
            (item :: r.1, r.2)
          else
            let r := loadItems tc budget rest used
            (r.1, { item with dropped := true } :: r.2)
      | .LOW =>
          if (item.tokens : Int) ≤ remaining ∧ budget ≤ 10 * remaining then
            let r := loadItems tc budget rest (used + item.tokens)
            (item :: r.1, r.2)
          else
            let r := loadItems tc budget rest used
            (r.1, { item with dropped := true } :: r.2)

/-- `ContextBudgetEnforcer._load_by_priority`. -/
def loadByPriority (tc : String → Nat) (budget : Int)
    (items : List ContentItem) : List ContentItem × List ContentItem :=
  loadItems tc budget (items.enum.mergeSort priorityLe) 0

/-- `BudgetResult` (without the diagnostic `overflow_report`). -/
structure BudgetResult where
  loaded_items : List ContentItem
  dropped_items : List ContentItem
  total_tokens : Nat
  budget : Int
  overflow : Bool

/-- `ContextBudgetEnforcer.enforce`. -/
def enforce (tc : String → Nat) (budget : Int) (items : List ContentItem) :
    BudgetResult :=
  let items := items.map (recountItem tc)
  let ld := loadByPriority tc budget items
  ⟨ld.1, ld.2, (ld.1.map ContentItem.tokens).sum, budget,
    !ld.2.isEmpty || ld.1.any ContentItem.truncated⟩

/-- The token mass of the CRITICAL input items, as counted by `tc`. -/
def criticalTokens (tc : String → Nat) (items : List ContentItem) : Nat :=
  ((items.filter (fun it => decide (it.priority = Priority.CRITICAL))).map
    (fun it => countTokens tc it.content)).sum

theorem priority_value_le_four (p : Priority) : p.value ≤ 4 := by
  cases p <;> simp [Priority.value]

theorem priority_value_eq_four (p : Priority) (h : p.value = 4) :
    p = Priority.CRITICAL := by
  cases p <;> simp_all [Priority.value]

theorem priorityLe_trans (a b c : Nat × ContentItem)
    (hab : priorityLe a b = true) (hbc : priorityLe b c = true) :
    priorityLe a c = true := by
  simp only [priorityLe, Bool.or_eq_true, Bool.and_eq_true,
    decide_eq_true_eq] at *
  omega

theorem priorityLe_total (a b : Nat × ContentItem) :
    (priorityLe a b || priorityLe b a) = true := by
  simp only [priorityLe, Bool.or_eq_true, Bool.and_eq_true,
    decide_eq_true_eq]
  omega

/-- Criticality test on an enumerated item. -/
def isCritP (p : Nat × ContentItem) : Bool :=
  decide (p.2.priority = Priority.CRITICAL)

theorem crit_mem_loadItems (tc : String → Nat) (budget : Int) :
    ∀ (l : List (Nat × ContentItem)) (used : Nat), ∀ p ∈ l,
      p.2.priority = Priority.CRITICAL →
      p.2 ∈ (loadItems tc budget l used).1 := by
  intro l
  induction l with
  | nil => simp
  | cons hd tl ih =>
    intro used p hp hcrit
    obtain ⟨i, item⟩ := hd
    rcases List.mem_cons.mp hp with rfl | hp'
    · have hcrit' : item.priority = Priority.CRITICAL := hcrit
      simp only [loadItems, hcrit']
      exact List.mem_cons_self _ _
    · have htail : p.2 ∈ (loadItems tc budget tl (used + item.tokens)).1 :=
        ih _ p hp' hcrit
      cases hpr : item.priority with
      | CRITICAL =>
          simp only [loadItems, hpr]
          exact List.mem_cons_of_mem _ (ih _ p hp' hcrit)
      | HIGH =>
          simp only [loadItems, hpr]
          by_cases h1 : (item.tokens : Int) ≤ budget - (used : Int)
          · simp only [h1, if_true]
            exact List.mem_cons_of_mem _ (ih _ p hp' hcrit)
          · simp only [h1, if_false]
            by_cases h2 : (100 : Int) ≤ budget - (used : Int)
            · simp only [h2, if_true]
              exact List.mem_cons_of_mem _ (ih _ p hp' hcrit)
            · simp only [h2, if_false]
              exact ih _ p hp' hcrit
      | MEDIUM =>
          simp only [loadItems, hpr]
          by_cases h1 : (item.tokens : Int) ≤ budget - (used : Int)
          · simp only [h1, if_true]
            exact List.mem_cons_of_mem _ (ih _ p hp' hcrit)
          · simp only [h1, if_false]
            exact ih _ p hp' hcrit
      | LOW =>
          simp only [loadItems, hpr]
          by_cases h1 : (item.tokens : Int) ≤ budget - (used : Int) ∧
              budget ≤ 10 * (budget - (used : Int))
          · simp only [h1, if_true]
            exact List.mem_cons_of_mem _ (ih _ p hp' hcrit)
          · simp only [h1, if_false]
            exact ih _ p hp' hcrit

theorem recountItem_priority (tc : String → Nat) (it : ContentItem) :
    (recountItem tc it).priority = it.priority := by
  by_cases h : it.tokens = 0 <;> simp [recountItem, h]

theorem recountItem_key (tc : String → Nat) (it : ContentItem) :
    (recountItem tc it).key = it.key := by
  by_cases h : it.tokens = 0 <;> simp [recountItem, h]

theorem recountItem_content (tc : String → Nat) (it : ContentItem) :
    (recountItem tc it).content = it.content := by
  by_cases h : it.tokens = 0 <;> simp [recountItem, h]

theorem recountItem_tokens_of_zero (tc : String → Nat) (it : ContentItem)
    (h : it.tokens = 0) :
    (recountItem tc it).tokens = countTokens tc it.content := by
  simp [recountItem, h]

theorem pyTake_length (s : String) (n : Nat) :
    (pyTake s n).length = min n s.length :=
  List.length_take n s.data

theorem string_length_append (a b : String) :
    (a ++ b).length = a.length + b.length :=
  List.length_append a.data b.data

theorem countTokens_chars_of_ne (s : String) (h : s ≠ "") :
    countTokens countTokensChars s = s.length / 4 := by
  simp [countTokens, h, countTokensChars]

/-- Core truncation bound: on an item whose token count is the character
estimate of its own content, `_truncate_item` stays within the remaining
budget (the branch conditions of the HIGH rule are the hypotheses). -/
theorem truncateItem_tokens_le (item : ContentItem) (remaining : Int)
    (hhon : item.tokens = countTokens countTokensChars item.content)
    (hgt : remaining < (item.tokens : Int)) (h100 : 100 ≤ remaining) :
    ((truncateItem countTokensChars item remaining).tokens : Int) ≤
      remaining := by
  have hm4 : countTokens countTokensChars "\n\n... [TRUNCATED]" = 4 := by
    decide
  have ht101 : 101 ≤ item.tokens := by
    have : (100 : Int) < (item.tokens : Int) := lt_of_le_of_lt h100 hgt
    exact_mod_cast this
  have hcne : item.content ≠ "" := by
    intro he
    rw [he] at hhon
    simp [countTokens] at hhon
    omega
  have htL : item.tokens = item.content.length / 4 := by
    rw [hhon, countTokens_chars_of_ne _ hcne]
  have hr0 : ¬(remaining ≤ 0) := by omega
  have hav : ¬(remaining - ((4 : Nat) : Int) ≤ 0) := by push_cast; omega
  simp only [truncateItem, hm4, if_neg hr0, if_neg hav]
  have ht0 : 0 < item.tokens := by omega
  rw [show max item.tokens 1 = item.tokens from max_eq_left (by omega)]
  set t := item.tokens with hht
  set L := item.content.length with hhL
  set a := (remaining - ((4 : Nat) : Int)).toNat with hha
  have haval : (a : Int) = remaining - 4 := by
    rw [hha]
    rw [Int.toNat_of_nonneg (by push_cast; omega)]
    push_cast
    ring
  have hat : a < t := by
    have : (a : Int) < (t : Int) := by
      rw [haval]
      omega
    exact_mod_cast this
  have hLt : L ≤ 4 * t + 3 := by
    have hdm := Nat.div_add_mod L 4
    have hmod : L % 4 < 4 := Nat.mod_lt _ (by omega)
    omega
  have hest_le : a * L / t ≤ 4 * a + 2 := by
    have h1 : a * L ≤ 4 * a * t + 3 * a := by
      calc a * L ≤ a * (4 * t + 3) := Nat.mul_le_mul_left a hLt
        _ = 4 * a * t + 3 * a := by ring
    have h2 : a * L / t ≤ (4 * a * t + 3 * a) / t :=
      Nat.div_le_div_right h1
    have h3 : (4 * a * t + 3 * a) / t = 4 * a + 3 * a / t := by
      rw [show 4 * a * t + 3 * a = t * (4 * a) + 3 * a by ring]
      rw [Nat.mul_add_div ht0]
    have h4 : 3 * a / t ≤ 2 := by
      have : 3 * a / t < 3 := by
        rw [Nat.div_lt_iff_lt_mul ht0]
        omega
      omega
    omega
  have main : ∀ s : String, s.length ≤ a * L / t →
      ((countTokens countTokensChars (s ++ "\n\n... [TRUNCATED]") : Nat) :
        Int) ≤ remaining := by
    intro s hs
    have hml : ("\n\n... [TRUNCATED]" : String).length = 17 := by decide
    have hlen : (s ++ "\n\n... [TRUNCATED]").length = s.length + 17 := by
      rw [string_length_append, hml]
    have hne : (s ++ "\n\n... [TRUNCATED]") ≠ "" := by
      intro he
      rw [he] at hlen
      have h0 : ("" : String).length = 0 := rfl
      omega
    rw [countTokens_chars_of_ne _ hne, hlen]
    have h5 : s.length + 17 ≤ 4 * a + 19 := by omega
    have h6 : (4 * a + 19) / 4 = a + 4 := by
      rw [Nat.mul_add_div (by omega)]
    have h7 : (s.length + 17) / 4 ≤ a + 4 := by
      calc (s.length + 17) / 4 ≤ (4 * a + 19) / 4 := Nat.div_le_div_right h5
        _ = a + 4 := h6
    have h8 : (((s.length + 17) / 4 : Nat) : Int) ≤ (a : Int) + 4 := by
      exact_mod_cast h7
    omega
  cases hrf : rfindSpace (pyTake item.content (a * L / t)) with
  | none =>
      simp only [hrf]
      exact main _ (by rw [pyTake_length]; omega)
  | some ls =>
      simp only [hrf]
      split
      · exact main _ (by rw [pyTake_length, pyTake_length]; omega)
      · exact main _ (by rw [pyTake_length]; omega)

/-- The token mass of a list of enumerated items. -/
def sumTok (l : List (Nat × ContentItem)) : Nat :=
  (l.map (fun p => p.2.tokens)).sum

theorem loadItems_crit_prefix (tc : String → Nat) (budget : Int) :
    ∀ (cs ns : List (Nat × ContentItem)) (used : Nat),
      (∀ p ∈ cs, p.2.priority = Priority.CRITICAL) →
      loadItems tc budget (cs ++ ns) used =
        (cs.map Prod.snd ++ (loadItems tc budget ns (used + sumTok cs)).1,
          (loadItems tc budget ns (used + sumTok cs)).2) := by
  intro cs
  induction cs with
  | nil =>
      intro ns used _
      simp [sumTok]
  | cons hd tl ih =>
      intro ns used h
      obtain ⟨i, item⟩ := hd
      have hcrit : item.priority = Priority.CRITICAL :=
        h (i, item) (List.mem_cons_self _ _)
      simp only [List.cons_append, loadItems, hcrit, List.append_eq]
      rw [ih ns (used + item.tokens)
        (fun p hp => h p (List.mem_cons_of_mem _ hp))]
      simp [sumTok, Nat.add_assoc]

theorem loadItems_noncrit_bound (budget : Int) :
    ∀ (ns : List (Nat × ContentItem)) (used : Nat),
      (∀ p ∈ ns, p.2.priority ≠ Priority.CRITICAL) →
      (∀ p ∈ ns, p.2.tokens = countTokens countTokensChars p.2.content) →
      (used : Int) +
        (((loadItems countTokensChars budget ns used).1.map
          ContentItem.tokens).sum : Int) ≤ max budget (used : Int) := by
  intro ns
  induction ns with
  | nil =>
      intro used _ _
      simp [loadItems]
  | cons hd tl ih =>
      intro used hnc hhon
      obtain ⟨i, item⟩ := hd
      have hnc_hd : item.priority ≠ Priority.CRITICAL :=
        hnc (i, item) (List.mem_cons_self _ _)
      have hhon_hd : item.tokens = countTokens countTokensChars item.content :=
        hhon (i, item) (List.mem_cons_self _ _)
      have hnc_tl : ∀ p ∈ tl, p.2.priority ≠ Priority.CRITICAL :=
        fun p hp => hnc p (List.mem_cons_of_mem _ hp)
      have hhon_tl : ∀ p ∈ tl,
          p.2.tokens = countTokens countTokensChars p.2.content :=
        fun p hp => hhon p (List.mem_cons_of_mem _ hp)
      have hload : ∀ add : Nat, (add : Int) ≤ budget - (used : Int) →
          (used : Int) + ((add : Int) +
            (((loadItems countTokensChars budget tl (used + add)).1.map
              ContentItem.tokens).sum : Int)) ≤ max budget (used : Int) := by
        intro add hadd
        have hih := ih (used + add) hnc_tl hhon_tl
        have hub : ((used + add : Nat) : Int) ≤ budget := by
          push_cast
          omega
        rw [max_eq_left hub] at hih
        have hfinal : (used : Int) + ((add : Int) +
            (((loadItems countTokensChars budget tl (used + add)).1.map
              ContentItem.tokens).sum : Int)) ≤ budget := by
          push_cast at hih ⊢
          omega
        exact le_trans hfinal (le_max_left _ _)
      cases hpr : item.priority with
      | CRITICAL => exact absurd hpr hnc_hd
      | HIGH =>
          simp only [loadItems, hpr]
          by_cases h1 : (item.tokens : Int) ≤ budget - (used : Int)
          · simp only [h1, if_true, List.map_cons, List.sum_cons]
            push_cast
            have := hload item.tokens h1
            push_cast at this
            omega
          · simp only [h1, if_false]
            by_cases h2 : (100 : Int) ≤ budget - (used : Int)
            · simp only [h2, if_true, List.map_cons, List.sum_cons]
              have htr : ((truncateItem countTokensChars item
                  (budget - (used : Int))).tokens : Int) ≤
                  budget - (used : Int) :=
                truncateItem_tokens_le item _ hhon_hd (by omega) h2
              have := hload (truncateItem countTokensChars item
                (budget - (used : Int))).tokens htr
              push_cast at this ⊢
              omega
            · simp only [h2, if_false]
              exact ih used hnc_tl hhon_tl
      | MEDIUM =>
          simp only [loadItems, hpr]
          by_cases h1 : (item.tokens : Int) ≤ budget - (used : Int)
          · simp only [h1, if_true, List.map_cons, List.sum_cons]
            have := hload item.tokens h1
            push_cast at this ⊢
            omega
          · simp only [h1, if_false]
            exact ih used hnc_tl hhon_tl
      | LOW =>
          simp only [loadItems, hpr]
          by_cases h1 : (item.tokens : Int) ≤ budget - (used : Int) ∧
              budget ≤ 10 * (budget - (used : Int))
          · rw [if_pos h1]
            simp only [List.map_cons, List.sum_cons]
            have := hload item.tokens h1.1
            push_cast at this ⊢
            omega
          · rw [if_neg h1]
            exact ih used hnc_tl hhon_tl

theorem recountItem_tokens_honest (tc : String → Nat) (it : ContentItem)
    (h : it.tokens = 0 ∨ it.tokens = countTokens tc it.content) :
    (recountItem tc it).tokens = countTokens tc it.content := by
  rcases h with h | h
  · exact recountItem_tokens_of_zero tc it h
  · by_cases hz : it.tokens = 0
    · exact recountItem_tokens_of_zero tc it hz
    · simp only [recountItem, if_neg hz]
      exact h

/-- C3 part 1 holds for any counter: every CRITICAL input item is present
in the loaded set (with its key, content and priority intact). -/
theorem enforce_keeps_critical (tc : String → Nat) (budget : Int)
    (items : List ContentItem) :
    ∀ it ∈ items, it.priority = Priority.CRITICAL →
      ∃ it' ∈ (enforce tc budget items).loaded_items,
        it'.key = it.key ∧ it'.content = it.content ∧
        it'.priority = Priority.CRITICAL := by
  intro it hit hcrit
  have hmem_mapped : recountItem tc it ∈ items.map (recountItem tc) :=
    List.mem_map_of_mem _ hit
  have hmem_enum : ∃ p ∈ (items.map (recountItem tc)).enum,
      p.2 = recountItem tc it := by
    have hsnd : (items.map (recountItem tc)).enum.map Prod.snd =
        items.map (recountItem tc) := List.enum_map_snd _
    rw [← hsnd] at hmem_mapped
    rcases List.mem_map.mp hmem_mapped with ⟨p, hp, hps⟩
    exact ⟨p, hp, hps⟩
  rcases hmem_enum with ⟨p, hp, hps⟩
  have hperm : ((items.map (recountItem tc)).enum.mergeSort priorityLe).Perm
      ((items.map (recountItem tc)).enum) := List.mergeSort_perm _ _
  have hp' : p ∈ (items.map (recountItem tc)).enum.mergeSort priorityLe :=
    hperm.mem_iff.mpr hp
  have hpcrit : p.2.priority = Priority.CRITICAL := by
    rw [hps, recountItem_priority, hcrit]
  have hload := crit_mem_loadItems tc budget _ 0 p hp' hpcrit
  refine ⟨p.2, hload, ?_, ?_, hpcrit⟩
  · rw [hps, recountItem_key]
  · rw [hps, recountItem_content]

theorem dropWhile_not_crit :
    ∀ {l : List (Nat × ContentItem)},
      l.Pairwise (fun a b => priorityLe a b = true) →
      ∀ p ∈ l.dropWhile isCritP, p.2.priority ≠ Priority.CRITICAL := by
  intro l
  induction l with
  | nil => simp
  | cons a t ih =>
      intro hs p hp
      by_cases ha : isCritP a = true
      · rw [List.dropWhile_cons, if_pos ha] at hp
        exact ih (List.pairwise_cons.mp hs).2 p hp
      · rw [List.dropWhile_cons, if_neg ha] at hp
        rcases List.mem_cons.mp hp with rfl | hp'
        · simpa [isCritP] using ha
        · intro hcrit
          have hrel := (List.pairwise_cons.mp hs).1 p hp'
          simp only [priorityLe, Bool.or_eq_true, Bool.and_eq_true,
            decide_eq_true_eq] at hrel
          have hp4 : p.2.priority.value = 4 := by rw [hcrit]; rfl
          rw [hp4] at hrel
          have hle4 := priority_value_le_four a.2.priority
          have ha4 : a.2.priority.value = 4 := by omega
          have : a.2.priority = Priority.CRITICAL :=
            priority_value_eq_four _ ha4
          simp [isCritP, this] at ha

theorem enumFrom_crit_sum :
    ∀ (l : List ContentItem) (k : Nat),
      (((List.enumFrom k l).filter isCritP).map (fun p => p.2.tokens)).sum =
        ((l.filter (fun it => decide (it.priority = Priority.CRITICAL))).map
          ContentItem.tokens).sum := by
  intro l
  induction l with
  | nil => simp
  | cons a t ih =>
      intro k
      simp only [List.enumFrom_cons, List.filter_cons]
      by_cases ha : a.priority = Priority.CRITICAL
      · simp [isCritP, ha, ih (k + 1)]
      · simp [isCritP, ha, ih (k + 1)]

/-- A HIGH item whose preset `tokens` field (101) understates its
500-character content: the truncation estimate then cuts 475 characters,
which recount to 123 tokens. -/
def c3CexItem : ContentItem :=
  ⟨"h", String.mk (List.replicate 500 'x'), Priority.HIGH, 101,
    false, false, 101⟩

set_option maxRecDepth 100000 in
/-- C3 counterexample: with no CRITICAL items at all and budget 100, the
loaded total is 123 tokens — the dishonest preset token count makes the
HIGH truncation overshoot the budget, so the claimed bound fails for
arbitrary content items. -/
theorem c3_budget_counterexample :
    criticalTokens countTokensChars [c3CexItem] = 0 ∧
    (enforce countTokensChars 100 [c3CexItem]).total_tokens = 123 ∧
    ¬(((enforce countTokensChars 100 [c3CexItem]).total_tokens : Int) ≤
      max 100 ((criticalTokens countTokensChars [c3CexItem] : Nat) : Int)) := by
  have htot : (enforce countTokensChars 100 [c3CexItem]).total_tokens =
      ((loadItems countTokensChars 100
        [(0, recountItem countTokensChars c3CexItem)] 0).1.map
        ContentItem.tokens).sum := by
    show ((loadItems countTokensChars 100
      (([recountItem countTokensChars c3CexItem]).enum.mergeSort priorityLe)
      0).1.map ContentItem.tokens).sum = _
    rw [show ([recountItem countTokensChars c3CexItem]).enum =
      [(0, recountItem countTokensChars c3CexItem)] from rfl]
    rw [List.mergeSort_singleton]
  have h123 : (enforce countTokensChars 100 [c3CexItem]).total_tokens = 123 := by
    rw [htot]
    decide
  refine ⟨rfl, h123, ?_⟩
  rw [h123]
  decide

/-- C3 (amended): the enforcer keeps every CRITICAL item in the loaded
set (for any token counter); and, with the in-repo character-estimate
counter and items whose token counts the enforcer itself computes, the
total loaded token count never exceeds the budget unless the CRITICAL
items alone forced the overflow: it is bounded by
`max budget criticalTokens`. -/
theorem c3_budget_enforcement (tc : String → Nat) (budget : Int)
    (items : List ContentItem)
    (h0 : ∀ it ∈ items, it.tokens = 0 ∨
      it.tokens = countTokens countTokensChars it.content) :
    (∀ it ∈ items, it.priority = Priority.CRITICAL →
      ∃ it' ∈ (enforce tc budget items).loaded_items,
        it'.key = it.key ∧ it'.content = it.content ∧
        it'.priority = Priority.CRITICAL) ∧
    (((enforce countTokensChars budget items).total_tokens : Int) ≤
      max budget ((criticalTokens countTokensChars items : Nat) : Int)) := by
  constructor
  · exact enforce_keeps_critical tc budget items
  · set mapped := items.map (recountItem countTokensChars) with hmapped
    set sorted := mapped.enum.mergeSort priorityLe with hsorted
    have hperm : sorted.Perm mapped.enum := List.mergeSort_perm _ _
    have hpair : sorted.Pairwise (fun a b => priorityLe a b = true) :=
      @List.sorted_mergeSort (Nat × ContentItem) priorityLe
        priorityLe_trans (fun a b => priorityLe_total a b) mapped.enum
    set cs := sorted.takeWhile isCritP with hcs_def
    set ns := sorted.dropWhile isCritP with hns_def
    have hsplit : cs ++ ns = sorted :=
      List.takeWhile_append_dropWhile isCritP sorted
    have hcs : ∀ p ∈ cs, p.2.priority = Priority.CRITICAL := by
      intro p hp
      have := List.mem_takeWhile_imp hp
      simpa [isCritP] using this
    have hns : ∀ p ∈ ns, p.2.priority ≠ Priority.CRITICAL :=
      dropWhile_not_crit hpair
    have hhon_all : ∀ p ∈ sorted,
        p.2.tokens = countTokens countTokensChars p.2.content := by
      intro p hp
      have hp1 : p ∈ mapped.enum := hperm.mem_iff.mp hp
      have hp2 : p.2 ∈ mapped := by
        have hsnd := List.enum_map_snd mapped
        rw [← hsnd]
        exact List.mem_map_of_mem Prod.snd hp1
      rcases List.mem_map.mp hp2 with ⟨it, hit, hrec⟩
      rw [← hrec, recountItem_tokens_honest _ _ (h0 it hit),
        recountItem_content]
    have hns_hon : ∀ p ∈ ns,
        p.2.tokens = countTokens countTokensChars p.2.content := by
      intro p hp
      have : p ∈ sorted := (List.dropWhile_sublist isCritP).mem hp
      exact hhon_all p this
    have htotal : (enforce countTokensChars budget items).total_tokens =
        sumTok cs +
          ((loadItems countTokensChars budget ns (0 + sumTok cs)).1.map
            ContentItem.tokens).sum := by
      show ((loadItems countTokensChars budget sorted 0).1.map
        ContentItem.tokens).sum = _
      rw [← hsplit, loadItems_crit_prefix _ _ cs ns 0 hcs]
      simp [sumTok, List.map_map, Function.comp_def]
    have hbound := loadItems_noncrit_bound budget ns (0 + sumTok cs) hns
      hns_hon
    have hcrit_id : sumTok cs = criticalTokens countTokensChars items := by
      have h1 : ((sorted.filter isCritP).map (fun p => p.2.tokens)).sum =
          sumTok cs := by
        rw [← hsplit, List.filter_append]
        rw [List.filter_eq_self.mpr (fun p hp => by
          simp [isCritP, hcs p hp])]
        rw [List.filter_eq_nil_iff.mpr (fun p hp => by
          simp only [isCritP, decide_eq_true_eq]
          exact hns p hp)]
        simp [sumTok]
      have h2 : ((sorted.filter isCritP).map (fun p => p.2.tokens)).sum =
          (((mapped.enum).filter isCritP).map (fun p => p.2.tokens)).sum :=
        List.Perm.sum_eq (List.Perm.map _ (List.Perm.filter _ hperm))
      have h3 : (((mapped.enum).filter isCritP).map
          (fun p => p.2.tokens)).sum =
          ((mapped.filter (fun it =>
            decide (it.priority = Priority.CRITICAL))).map
            ContentItem.tokens).sum := by
        rw [show mapped.enum = List.enumFrom 0 mapped from rfl]
        exact enumFrom_crit_sum mapped 0
      have h4 : ((mapped.filter (fun it =>
          decide (it.priority = Priority.CRITICAL))).map
          ContentItem.tokens).sum = criticalTokens countTokensChars items := by
        rw [hmapped, List.filter_map]
        rw [List.filter_congr (fun it _ => by
          simp only [Function.comp_def]
          rw [recountItem_priority])]
        rw [criticalTokens, List.map_map]
        apply congrArg
        apply List.map_congr_left
        intro it hit
        have hit' : it ∈ items := List.mem_of_mem_filter hit
        simp only [Function.comp_def]
        rw [recountItem_tokens_honest _ _ (h0 it hit')]
      rw [← h1, h2, h3, h4]
    rw [htotal, ← hcrit_id]
    push_cast at hbound ⊢
    omega

/-- Concrete items used to witness `c3_budget_enforcement`. -/
def c3WitItems : List ContentItem :=
  [⟨"teaching_notes", String.mk (List.replicate 48 'n'), Priority.CRITICAL,
      0, false, false, 0⟩,
   ⟨"previous", String.mk (List.replicate 400 'p'), Priority.HIGH,
      0, false, false, 0⟩,
   ⟨"history", String.mk (List.replicate 8 'h'), Priority.LOW,
      0, false, false, 0⟩]

/-- Witness for C3: on concrete items the CRITICAL one is kept and the
total respects the bound. -/
theorem c3_budget_enforcement_witness :
    (∃ it' ∈ (enforce countTokensChars 20 c3WitItems).loaded_items,
      it'.key = "teaching_notes" ∧
        it'.content = String.mk (List.replicate 48 'n') ∧
        it'.priority = Priority.CRITICAL) ∧
    (((enforce countTokensChars 20 c3WitItems).total_tokens : Int) ≤
      max 20 ((criticalTokens countTokensChars c3WitItems : Nat) : Int)) :=
  ⟨(c3_budget_enforcement countTokensChars 20 c3WitItems
      (by intro it hit; fin_cases hit <;> exact Or.inl rfl)).1
    ⟨"teaching_notes", String.mk (List.replicate 48 'n'), Priority.CRITICAL,
      0, false, false, 0⟩ (by simp [c3WitItems]) rfl,
   (c3_budget_enforcement countTokensChars 20 c3WitItems
      (by intro it hit; fin_cases hit <;> exact Or.inl rfl)).2⟩

/-!
## `swarm/runtime/structured_output.py` — claims C6 and C10

`json.loads` is an external library primitive; it is passed in as
`loads : String → Option PyVal` (`none` = `JSONDecodeError`), and
`re.match` on schema-supplied patterns as `m : String → String → Bool`.
The two fixed fence regexes of `extract_json_from_text` are embedded
directly: a lazy `<open>\s*([\s\S]*?)\s*<close>` match selects the text
between the first opening token and the first closing token after it, up
to surrounding whitespace, and both call sites `.strip()` the group, so
stripping the raw between-text yields the same string.  Python `str`
formatting of values in error messages (`pyStrOf`/`pyReprOf`)
approximates CPython float repr; no claim depends on message text.
-/

/-- Python whitespace for `str.strip()` (ASCII range). -/
def isPyWS (c : Char) : Bool :=
  c = ' ' || c = '\t' || c = '\n' || c = '\r' || c = '\x0b' || c = '\x0c'

/-- Python `str.strip()`. -/
def pyStrip (s : String) : String :=
  ⟨((s.data.dropWhile isPyWS).reverse.dropWhile isPyWS).reverse⟩

/-- First index at which `needle` occurs in `hay`, counting from `idx`. -/
def findSubAux (needle : List Char) : List Char → Nat → Option Nat
  | [], idx => if needle.isEmpty then some idx else none
  | c :: t, idx =>
      if needle.isPrefixOf (c :: t) then some idx
      else findSubAux needle t (idx + 1)

/-- First occurrence of `needle` in `hay` at an index `≥ start`. -/
def findSubFrom (hay needle : List Char) (start : Nat) : Option Nat :=
  findSubAux needle (hay.drop start) start

/-- The group of the first match of the fence pattern with opening token
`openTok` (of length `n`): text between the first opening token and the
first closing ` ``` ` after it (the caller strips it). -/
def fenceContent (text openTok : List Char) (n : Nat) :
    Option (List Char) :=
  match findSubAux openTok text 0 with
  | none => none
  | some p =>
      match findSubFrom text ['`', '`', '`'] (p + n) with
      | none => none
      | some q => some ((text.drop (p + n)).take (q - (p + n)))

/-- Inner loop of `_find_json_candidates`: scan from an opening brace,
tracking depth, string state and escapes; return the relative index of
the brace that closes it. -/
def scanBalanced : List Char → Int → Bool → Bool → Nat → Option Nat
  | [], _, _, _, _ => none
  | c :: t, depth, inStr, esc, j =>
      if esc then scanBalanced t depth inStr false (j + 1)
      else if c = '\\' then scanBalanced t depth inStr true (j + 1)
      else if c = '"' then scanBalanced t depth (!inStr) false (j + 1)
      else if inStr then scanBalanced t depth inStr false (j + 1)
      else if c = '{' then scanBalanced t (depth + 1) inStr false (j + 1)
      else if c = '}' then
        (if depth - 1 = 0 then some j
         else scanBalanced t (depth - 1) inStr false (j + 1))
      else scanBalanced t depth inStr false (j + 1)

/-- `_find_json_candidates`: balanced-brace candidate substrings, in
order of appearance; after a complete candidate the scan resumes just
past its closing brace. -/
def findJsonCandidates : List Char → List String
  | [] => []
  | c :: t =>
      if c = '{' then
        match scanBalanced (c :: t) 0 false false 0 with
        | some j => ⟨(c :: t).take (j + 1)⟩ :: findJsonCandidates (t.drop j)
        | none => findJsonCandidates t
      else findJsonCandidates t
termination_by l => l.length
decreasing_by
  · simp only [List.length_cons]
    have := List.length_drop j t
    omega
  · simp
  · simp

/-- The code markers that make strategy 2 skip a generic fence. -/
def codeMarkers : List String :=
  ["def ", "class ", "function ", "import ", "const ", "let ", "var "]

/-- `extract_json_from_text`: fenced JSON, then balanced-brace candidates,
then raw text; only `dict` values are returned. -/
def extractJsonFromText (loads : String → Option PyVal) (text : String) :
    Option PyVal × Option String :=
  if pyStrip text = "" then (none, some "Empty response received")
  else
    let text := pyStrip text
    -- Strategy 1: ```json fence (a parse error falls through; a parsed
    -- non-object returns the error immediately)
    let s1 : Option (Option PyVal × Option String) :=
      match fenceContent text.data "```json".data 7 with
      | some raw =>
          let json_str := pyStrip ⟨raw⟩
          match loads json_str with
          | some (.pydict kvs) => some (some (.pydict kvs), none)
          | some data =>
              some (none, some ("Expected JSON object, got " ++ pyTypeName data))
          | none => none
      | none => none
    match s1 with
    | some r => r
    | none =>
        -- Strategy 2: generic fence, skipping code-like content; neither
        -- a parse error nor a non-object returns here
        let s2 : Option PyVal :=
          match fenceContent text.data "```".data 3 with
          | some raw =>
              let json_str := pyStrip ⟨raw⟩
              if codeMarkers.any (fun mk => mk.data.isPrefixOf json_str.data)
              then none
              else
                match loads json_str with
                | some (.pydict kvs) => some (.pydict kvs)
                | _ => none
          | none => none
        match s2 with
        | some d => (some d, none)
        | none =>
            -- Strategy 3: balanced-brace candidates
            match (findJsonCandidates text.data).findSome? (fun cand =>
              match loads cand with
              | some (.pydict kvs) => some (PyVal.pydict kvs)
              | _ => none) with
            | some d => (some d, none)
            | none =>
                -- Strategy 4: raw text starting with a bracket
                if ['{'].isPrefixOf text.data || ['['].isPrefixOf text.data
                then
                  match loads text with
                  | some (.pydict kvs) => (some (.pydict kvs), none)
                  | some data =>
                      (none, some ("Expected JSON object, got " ++
                        pyTypeName data))
                  | none => (none, some "Invalid JSON")
                else (none, some "No valid JSON found in response")

mutual
/-- Structural size of a `PyVal`, for the validator's recursion. -/
def pySize : PyVal → Nat
  | .pylist xs => 1 + pySizeL xs
  | .pydict kvs => 1 + pySizeKV kvs
  | _ => 1
def pySizeL : List PyVal → Nat
  | [] => 0
  | x :: xs => 1 + pySize x + pySizeL xs
def pySizeKV : List (String × PyVal) → Nat
  | [] => 0
  | (_, v) :: xs => 1 + pySize v + pySizeKV xs
end

mutual
/-- Python `==` on JSON values: `None` equals only itself, numbers
(`bool` included, as a subclass of `int`) compare by value, strings and
lists structurally.  CPython dict equality ignores insertion order; the
JSON dicts compared here come from `json.loads` with string keys, and
are compared as ordered association lists. -/
def pyEq : PyVal → PyVal → Bool
  | .pynone, .pynone => true
  | .pystr a, .pystr b => a = b
  | .pylist xs, .pylist ys => pyEqList xs ys
  | .pydict xs, .pydict ys => pyEqKV xs ys
  | a, b =>
      match pyToRat a, pyToRat b with
      | some x, some y => x = y
      | _, _ => false
def pyEqList : List PyVal → List PyVal → Bool
  | [], [] => true
  | x :: xs, y :: ys => pyEq x y && pyEqList xs ys
  | _, _ => false
def pyEqKV : List (String × PyVal) → List (String × PyVal) → Bool
  | [], [] => true
  | (k1, v1) :: xs, (k2, v2) :: ys => k1 = k2 && pyEq v1 v2 && pyEqKV xs ys
  | _, _ => false
end

mutual
/-- Python `repr()` of a JSON value (float formatting approximated). -/
def pyReprOf : PyVal → String
  | .pynone => "None"
  | .pybool b => if b then "True" else "False"
  | .pyint n => toString n
  | .pyfloat q => toString q
  | .pystr s => "\x27" ++ s ++ "\x27"
  | .pylist xs => "[" ++ pyReprList xs ++ "]"
  | .pydict kvs => "\x7b" ++ pyReprKV kvs ++ "\x7d"
def pyReprList : List PyVal → String
  | [] => ""
  | [x] => pyReprOf x
  | x :: xs => pyReprOf x ++ ", " ++ pyReprList xs
def pyReprKV : List (String × PyVal) → String
  | [] => ""
  | [(k, v)] => "\x27" ++ k ++ "\x27: " ++ pyReprOf v
  | (k, v) :: xs => "\x27" ++ k ++ "\x27: " ++ pyReprOf v ++ ", " ++ pyReprKV xs
end

/-- Python `str()` of a value, as f-string interpolation uses it. -/
def pyStrOf : PyVal → String
  | .pystr s => s
  | v => pyReprOf v

/-- `schema.get(k)`: `None` for a missing key, and a stored `None` is
indistinguishable from a missing key. -/
def schemaGet (kvs : List (String × PyVal)) (k : String) : Option PyVal :=
  match pyGet kvs k with
  | some .pynone => none
  | x => x

/-- The keys of the validator's `type_map`. -/
def typeNames : List String :=
  ["string", "number", "integer", "boolean", "array", "object", "null"]

/-- `isinstance(value, type_map[t])`: note `bool` is a Python subclass of
`int`, so booleans satisfy `integer` and `number`. -/
def pyIsInst (t : String) (v : PyVal) : Bool :=
  match t with
  | "string" => match v with | .pystr _ => true | _ => false
  | "number" =>
      match v with
      | .pybool _ => true | .pyint _ => true | .pyfloat _ => true
      | _ => false
  | "integer" => match v with | .pybool _ => true | .pyint _ => true | _ => false
  | "boolean" => match v with | .pybool _ => true | _ => false
  | "array" => match v with | .pylist _ => true | _ => false
  | "object" => match v with | .pydict _ => true | _ => false
  | "null" => match v with | .pynone => true | _ => false
  | _ => false

/-- `ValidationError` dataclass. -/
structure VError where
  path : String
  message : String
  value : Option PyVal

/-- `prop.get(k)` on a schema value that should be a dict (a non-dict
schema would raise in Python). -/
def propGetRaw (prop : PyVal) (k : String) : Option PyVal :=
  match prop with
  | .pydict ps => pyGet ps k
  | _ => none

/-- `prop.get(k)` where a stored `None` equals a missing key. -/
def propGet (prop : PyVal) (k : String) : Option PyVal :=
  match propGetRaw prop k with
  | some .pynone => none
  | x => x

set_option maxHeartbeats 1000000 in
/-- `value is None`. -/
def isNoneV : PyVal → Bool
  | .pynone => true
  | _ => false

/-- The schema dict\x27s entries (the `schema.get(...)` receiver). -/
def schemaFields : PyVal → List (String × PyVal)
  | .pydict s => s
  | _ => []

/-- `schema.get("required", [])`, tolerating a non-list value. -/
def requiredList (schema : PyVal) : List PyVal :=
  match pyGet (schemaFields schema) "required" with
  | some (.pylist xs) => xs
  | _ => []

/-- `schema.get("properties", \x7b\x7d)`, tolerating a non-dict value. -/
def propertiesOf (schema : PyVal) : List (String × PyVal) :=
  match pyGet (schemaFields schema) "properties" with
  | some (.pydict ps) => ps
  | _ => []

/-- The `for field in required:` missing-field loop of
`validate_against_schema`. -/
def requiredErrs (kvs : List (String × PyVal)) (schema : PyVal)
    (path : String) : List VError :=
  (requiredList schema).filterMap fun fv =>
    let present : Bool :=
      match fv with
      | .pystr s => (pyGet kvs s).isSome
      | _ => false
    if present then none
    else some ⟨path ++ "." ++ pyStrOf fv,
      "Required field \x27" ++ pyStrOf fv ++ "\x27 is missing", none⟩

mutual
/-- `validate_against_schema`: required fields first, then for each
present field (in dict order) the null, enum, type, nested-object,
array-item, string-constraint and numeric-constraint checks, errors
appended in source order.  `m` models `re.match` on schema-supplied
patterns.  Schema values of the wrong shape (a non-list `required` or
`enum`, a non-dict property schema, a non-numeric bound), which would
raise an uncaught exception in Python, contribute no errors here. -/
def validate (m : String → String → Bool) (data schema : PyVal)
    (path : String) : List VError :=
  match data with
  | .pydict kvs =>
      requiredErrs kvs schema path
        ++ validateFields m kvs (propertiesOf schema) path
  | _ => [⟨path, "Expected object, got " ++ pyTypeName data, some data⟩]
termination_by 16 * pySize data + 3
decreasing_by all_goals (simp [pySize, pySizeL, pySizeKV]; try omega)

/-- The `for field_name, value in data.items()` loop: unknown fields are
skipped (`additionalProperties` is not enforced). -/
def validateFields (m : String → String → Bool)
    (fields properties : List (String × PyVal)) (path : String) :
    List VError :=
  match fields with
  | [] => []
  | (fname, value) :: rest =>
      (match pyGet properties fname with
       | none => []
       | some prop_schema => validateOne m fname value prop_schema path)
      ++ validateFields m rest properties path
termination_by 16 * pySizeKV fields + 12
decreasing_by all_goals (simp [pySize, pySizeL, pySizeKV]; try omega)

/-- The per-field checks of `validate_against_schema`. -/
def validateOne (m : String → String → Bool) (fname : String)
    (value prop_schema : PyVal) (path : String) : List VError :=
  let field_path := path ++ "." ++ fname
  if isNoneV value then
    let nullable :=
      pyTruthy ((propGetRaw prop_schema "nullable").getD (.pybool false))
    let prop_type := propGet prop_schema "type"
    if (match prop_type with
        | some (.pystr "null") => true
        | _ => false) || nullable then []
    else
      match prop_type with
      | some pt =>
          [⟨field_path,
            "Value cannot be null (expected type \x27" ++ pyStrOf pt ++
              "\x27)", some .pynone⟩]
      | none => []
  else
      let enumErrs :=
        match propGetRaw prop_schema "enum" with
        | some (.pylist allowed) =>
            if allowed.any (fun av => pyEq value av) then []
            else
              [⟨field_path,
                "Value \x27" ++ pyStrOf value ++
                  "\x27 not in allowed values: " ++ pyStrOf (.pylist allowed),
                some value⟩]
        | _ => []
      let expected_type := propGet prop_schema "type"
      let typeErrs :=
        match expected_type with
        | some et =>
            if pyTruthy et then
              match et with
              | .pystr t =>
                  if t ∈ typeNames then
                    if pyIsInst t value then []
                    else if t = "integer" &&
                        (match value with
                         | .pyfloat q => q.den = 1
                         | _ => false) then []
                    else
                      [⟨field_path,
                        "Expected type \x27" ++ t ++ "\x27, got \x27" ++
                          pyTypeName value ++ "\x27", some value⟩]
                  else []
              | _ => []
            else []
        | none => []
      let nestedErrs :=
        match propGet prop_schema "type" with
        | some (.pystr "object") =>
            (match value with
             | .pydict nkvs => validate m (.pydict nkvs) prop_schema field_path
             | _ => [])
        | _ => []
      let arrayErrs :=
        match propGet prop_schema "type" with
        | some (.pystr "array") =>
            (match value with
             | .pylist items =>
                 (match propGetRaw prop_schema "items" with
                  | some items_schema =>
                      if pyTruthy items_schema then
                        validateItems m items items_schema field_path 0
                      else []
                  | none => [])
             | _ => [])
        | _ => []
      let strErrs :=
        match expected_type, value with
        | some (.pystr "string"), .pystr sv =>
            (match propGet prop_schema "minLength" with
             | some mv =>
                 (match pyToRat mv with
                  | some q =>
                      if (sv.length : Rat) < q then
                        [⟨field_path,
                          "String length " ++ toString sv.length ++
                            " is less than minimum " ++ pyStrOf mv,
                          some value⟩]
                      else []
                  | none => [])
             | none => [])
            ++ (match propGet prop_schema "maxLength" with
             | some mv =>
                 (match pyToRat mv with
                  | some q =>
                      if (sv.length : Rat) > q then
                        [⟨field_path,
                          "String length " ++ toString sv.length ++
                            " exceeds maximum " ++ pyStrOf mv, some value⟩]
                      else []
                  | none => [])
             | none => [])
            ++ (match propGet prop_schema "pattern" with
             | some (.pystr p) =>
                 if m p sv then []
                 else
                   [⟨field_path,
                     "String does not match pattern \x27" ++ p ++ "\x27",
                     some value⟩]
             | some _ => []
             | none => [])
        | _, _ => []
      let numErrs :=
        match expected_type with
        | some (.pystr et) =>
            if (et = "number" || et = "integer") then
              match pyToRat value with
              | some vq =>
                  (match value with
                   | .pystr _ => []
                   | _ =>
                    (match propGet prop_schema "minimum" with
                     | some bv =>
                         (match pyToRat bv with
                          | some bq =>
                              if vq < bq then
                                [⟨field_path,
                                  "Value " ++ pyStrOf value ++
                                    " is less than minimum " ++ pyStrOf bv,
                                  some value⟩]
                              else []
                          | none => [])
                     | none => [])
                    ++ (match propGet prop_schema "maximum" with
                     | some bv =>
                         (match pyToRat bv with
                          | some bq =>
                              if vq > bq then
                                [⟨field_path,
                                  "Value " ++ pyStrOf value ++
                                    " exceeds maximum " ++ pyStrOf bv,
                                  some value⟩]
                              else []
                          | none => [])
                     | none => [])
                    ++ (match propGet prop_schema "exclusiveMinimum" with
                     | some bv =>
                         (match pyToRat bv with
                          | some bq =>
                              if vq ≤ bq then
                                [⟨field_path,
                                  "Value " ++ pyStrOf value ++
                                    " must be greater than " ++ pyStrOf bv,
                                  some value⟩]
                              else []
                          | none => [])
                     | none => [])
                    ++ (match propGet prop_schema "exclusiveMaximum" with
                     | some bv =>
                         (match pyToRat bv with
                          | some bq =>
                              if vq ≥ bq then
                                [⟨field_path,
                                  "Value " ++ pyStrOf value ++
                                    " must be less than " ++ pyStrOf bv,
                                  some value⟩]
                              else []
                          | none => [])
                     | none => []))
              | none => []
            else []
        | _ => []
      enumErrs ++ typeErrs ++ nestedErrs ++ arrayErrs ++ strErrs ++ numErrs
termination_by 16 * pySize value + 11
decreasing_by all_goals (simp [pySize, pySizeL, pySizeKV]; try omega)

/-- The array-item loop: objects recurse, otherwise a plain type check,
plus a per-item enum check. -/
def validateItems (m : String → String → Bool) (items : List PyVal)
    (items_schema : PyVal) (field_path : String) (idx : Nat) :
    List VError :=
  match items with
  | [] => []
  | item :: rest =>
      let item_path := field_path ++ "[" ++ toString idx ++ "]"
      let itemTypeCheck : List VError :=
        match propGetRaw items_schema "type" with
        | some (.pystr t) =>
            if t ∈ typeNames then
              if pyIsInst t item then []
              else
                [⟨item_path,
                  "Expected array item type \x27" ++ t ++
                    "\x27, got \x27" ++ pyTypeName item ++ "\x27",
                  some item⟩]
            else []
        | _ => []
      let e1 :=
        match propGet items_schema "type" with
        | some (.pystr "object") =>
            (match item with
             | .pydict ik => validate m (.pydict ik) items_schema item_path
             | _ => itemTypeCheck)
        | _ => itemTypeCheck
      let e2 :=
        match propGetRaw items_schema "enum" with
        | some (.pylist allowed) =>
            if allowed.any (fun av => pyEq item av) then []
            else
              [⟨item_path,
                "Array item \x27" ++ pyStrOf item ++
                  "\x27 not in allowed values: " ++ pyStrOf (.pylist allowed),
                some item⟩]
        | _ => []
      e1 ++ e2 ++ validateItems m rest items_schema field_path (idx + 1)
termination_by 16 * pySizeL items + 8
decreasing_by all_goals (simp [pySize, pySizeL, pySizeKV]; try omega)
end

/-- `ExtractionResult` dataclass. -/
structure ExtractionResult where
  success : Bool
  data : Option PyVal
  errors : List VError
  attempts : Nat
  raw_responses : List String

/-- The `for attempt in range(max_attempts)` loop of
`extract_with_microloop`, with `fuel` counting the remaining attempts.
The LLM is the oracle `query_fn` (per-attempt response, `none` for a
raised exception); reprompt construction only changes what the next
query sees, which the oracle already absorbs, and exception text in the
query-failed error message is abbreviated. -/
def microloopGo (m : String → String → Bool) (loads : String → Option PyVal)
    (schema : PyVal) (query_fn : Nat → Option String) (max_attempts : Nat) :
    Nat → ExtractionResult → ExtractionResult
  | 0, res => res
  | fuel + 1, res =>
      let attempt := max_attempts - (fuel + 1)
      let res := { res with attempts := attempt + 1 }
      match query_fn attempt with
      | none =>
          microloopGo m loads schema query_fn max_attempts fuel
            { res with
                errors := [⟨"$", "Query failed", none⟩],
                raw_responses := res.raw_responses ++ ["[QUERY_ERROR]"] }
      | some response =>
          let res :=
            { res with raw_responses := res.raw_responses ++ [response] }
          match extractJsonFromText loads response with
          | (none, parse_error) =>
              microloopGo m loads schema query_fn max_attempts fuel
                { res with
                    errors := [⟨"$", parse_error.getD "Invalid JSON", none⟩] }
          | (some data, _) =>
              match validate m data schema "$" with
              | [] =>
                  { res with success := true, data := some data, errors := [] }
              | verrs =>
                  microloopGo m loads schema query_fn max_attempts fuel
                    { res with errors := verrs }

/-- `extract_with_microloop`. -/
def extractWithMicroloop (m : String → String → Bool)
    (loads : String → Option PyVal) (schema : PyVal)
    (query_fn : Nat → Option String) (max_attempts : Nat) :
    ExtractionResult :=
  microloopGo m loads schema query_fn max_attempts max_attempts
    ⟨false, none, [], 0, []⟩

set_option maxHeartbeats 4000000 in
theorem microloopGo_success (m : String → String → Bool)
    (loads : String → Option PyVal) (schema : PyVal)
    (query_fn : Nat → Option String) (max_attempts : Nat) :
    ∀ (fuel : Nat) (res : ExtractionResult), res.success = false →
      (microloopGo m loads schema query_fn max_attempts fuel res).success =
        true →
      ∃ d,
        (microloopGo m loads schema query_fn max_attempts fuel res).data =
          some d ∧ validate m d schema "$" = [] := by
  intro fuel
  induction fuel with
  | zero =>
      intro res hres hs
      simp only [microloopGo] at hs
      rw [hres] at hs
      simp at hs
  | succ n ih =>
      intro res hres hs
      simp only [microloopGo] at hs ⊢
      revert hs
      cases hq : query_fn (max_attempts - (n + 1)) with
      | none =>
          intro hs
          exact ih _ hres hs
      | some response =>
          simp only []
          rcases hex : extractJsonFromText loads response with ⟨od, oe⟩
          intro hs
          cases od with
          | none => exact ih _ hres hs
          | some data =>
              simp only [] at hs ⊢
              revert hs
              cases hval : validate m data schema "$" with
              | nil =>
                  intro hs
                  exact ⟨data, rfl, hval⟩
              | cons e es =>
                  intro hs
                  exact ih _ hres hs

/-- C6: whenever the extraction microloop reports success, the data it
returns is present and revalidates against the schema with zero
validation errors. -/
theorem c6_extract_success_validates (m : String → String → Bool)
    (loads : String → Option PyVal) (schema : PyVal)
    (query_fn : Nat → Option String) (max_attempts : Nat)
    (hs : (extractWithMicroloop m loads schema query_fn
      max_attempts).success = true) :
    ∃ d,
      (extractWithMicroloop m loads schema query_fn max_attempts).data =
        some d ∧ validate m d schema "$" = [] :=
  microloopGo_success m loads schema query_fn max_attempts max_attempts
    ⟨false, none, [], 0, []⟩ rfl hs

/-- The oracle for the C6 witness: a transport that answers with a fenced
JSON object, and the JSON parser on the strings involved. -/
def c6Loads : String → Option PyVal := fun s =>
  if s = "\x7b\"ok\": true\x7d" then some (.pydict [("ok", .pybool true)])
  else none

/-- The witness transport response: a fenced JSON object. -/
def c6Resp : String := "```json\n\x7b\"ok\": true\x7d\n```"

set_option maxHeartbeats 4000000 in
/-- Witness for C6: a concrete successful extraction revalidates to zero
errors. -/
theorem c6_extract_success_validates_witness :
    ∃ d,
      (extractWithMicroloop (fun _ _ => true) c6Loads (.pydict [])
        (fun _ => some c6Resp) 3).data = some d ∧
      validate (fun _ _ => true) d (.pydict []) "$" = [] :=
  c6_extract_success_validates (fun _ _ => true) c6Loads (.pydict [])
    (fun _ => some c6Resp) 3 (by
      have hex : extractJsonFromText c6Loads c6Resp =
          (some (.pydict [("ok", .pybool true)]), none) := rfl
      have hval : validate (fun _ _ => true)
          (.pydict [("ok", .pybool true)]) (.pydict []) "$" = [] := by
        rw [validate, validateFields, validateFields]
        simp [requiredErrs, requiredList, propertiesOf, schemaFields, pyGet]
      simp [extractWithMicroloop, microloopGo, hex, hval])

/-- C10: `extract_json_from_text` only ever hands back a parsed value
that is a JSON object: every `some` result of any of the four strategies
is a dict, and raw text whose only parse is a top-level array comes back
as `None` together with the "Expected JSON object, got list" error. -/
theorem c10_extract_json_object_only (loads : String → Option PyVal)
    (text : String) :
    (∀ v, (extractJsonFromText loads text).1 = some v →
      ∃ kvs, v = PyVal.pydict kvs) ∧
    (loads "[1, 2]" = some (.pylist [.pyint 1, .pyint 2]) →
      extractJsonFromText loads "[1, 2]" =
        (none, some "Expected JSON object, got list")) := by
  constructor
  · intro v hv
    unfold extractJsonFromText at hv
    split at hv
    · simp at hv
    · simp only [] at hv
      split at hv
      · rename_i r heq
        split at heq
        · split at heq
          · rename_i kvs _
            cases heq
            simp at hv
            exact ⟨_, hv.symm⟩
          · cases heq
            simp at hv
          · cases heq
        · cases heq
      · split at hv
        · rename_i d heq2
          split at heq2
          · split at heq2
            · cases heq2
            · split at heq2
              · rename_i kvs _
                cases heq2
                simp at hv
                exact ⟨_, hv.symm⟩
              · cases heq2
          · cases heq2
        · split at hv
          · rename_i d heq3
            obtain ⟨cand, hmem, hcand⟩ := List.exists_of_findSome?_eq_some heq3
            revert hcand
            split
            · rename_i kvs _
              intro hcand
              cases hcand
              simp at hv
              exact ⟨_, hv.symm⟩
            · intro hcand
              cases hcand
          · split at hv
            · split at hv
              · rename_i kvs _
                simp at hv
                exact ⟨_, hv.symm⟩
              · simp at hv
              · simp at hv
            · simp at hv
  · intro hl
    have h1 : pyStrip "[1, 2]" = "[1, 2]" := by decide
    simp [extractJsonFromText, h1, fenceContent, findSubFrom, findSubAux,
      findJsonCandidates, scanBalanced, codeMarkers, List.isPrefixOf, hl,
      pyTypeName]

/-- The JSON parser oracle for the C10 witness: only the raw array text
parses, to a top-level array. -/
def c10Loads : String → Option PyVal := fun s =>
  if s = "[1, 2]" then some (.pylist [.pyint 1, .pyint 2]) else none

/-- Witness for C10: with a parser that reads the raw text as an array,
extraction returns no data and the array error message. -/
theorem c10_extract_json_object_only_witness :
    extractJsonFromText c10Loads "[1, 2]" =
      (none, some "Expected JSON object, got list") :=
  (c10_extract_json_object_only c10Loads "[1, 2]").2 rfl

end FlowStudio
